import Mathlib

/-!
A shallow embedding of the configuration-resolution and keyboard-search core
of the `asd` dashboard (TypeScript/React), together with proofs about it.

Embedded source files:
* `src/utils/cacheManager.ts` — three-tier TTL cache (`CacheManager`)
* `src/utils/githubApi.ts` — `GitHubApiClient.fetchConfig` and its error policy
* `src/utils/settingsManager.ts` — `SettingsManager.validateYamlContent` /
  `parseYamlToConfig`
* `src/hooks/useServices.ts` — the fallback resolution pipeline `fetchServices`
* `src/utils/navigationUtils.ts` and `src/hooks/useKeyboardSearch.ts` — the
  search / focus state machine.

Modelling conventions: browser storage tiers become explicit `Option` fields of
a state record; `Date.now()` becomes a fixed `now : Int` field (the code is
single-threaded and reads the clock while no time passes between the reads that
matter here); thrown JS exceptions become an explicit `Exc` sum threaded through
`Except`; external library calls that are not part of this repository
(`js-yaml`, `atob`, `fetch`, `Date.prototype.toLocaleTimeString`,
`JSON.parse` of untrusted text) are supplied by environment records, so that
every branch of the code of the repository is represented literally.
-/

/-- Does `needle` occur as a contiguous sublist of the second argument? -/
def listContainsSub (needle : List Char) : List Char → Bool
  | [] => needle.isPrefixOf []
  | c :: rest => needle.isPrefixOf (c :: rest) || listContainsSub needle rest

/-- JS `haystack.includes(needle)` on strings: substring containment. -/
def jsIncludes (s search : String) : Bool :=
  listContainsSub search.toList s.toList

/-- JS `String.prototype.trim()`: strip leading and trailing whitespace.
Implemented over the character list so that it evaluates by kernel
reduction. -/
def jsTrim (s : String) : String :=
  String.mk
    (((s.toList.dropWhile Char.isWhitespace).reverse.dropWhile
      Char.isWhitespace).reverse)

/-- JS truthiness of a `string | undefined | null` value: `undefined`, `null`
and `""` are falsy, every other string is truthy. -/
def jsTruthyStr : Option String → Bool
  | none => false
  | some s => s ≠ ""

/-- JS template interpolation of a `string | null` value (`null` prints as
`"null"`), as used for the rate-limit headers. -/
def jsStrOrNull : Option String → String
  | none => "null"
  | some s => s

/-! ## Data model (`src/types/index.ts`) -/

/-- One shortcut entry (`Service` in `src/types/index.ts`). -/
structure Service where
  id : String
  name : String
  description : String
  url : String
  category : Option String
deriving DecidableEq, Repr

/-- The parsed configuration document (`ServicesConfig`). -/
structure ServicesConfig where
  title : Option String
  services : List Service
deriving DecidableEq, Repr

/-- A cache entry (`CacheEntry`).  The `source` field is a string-literal union
in TypeScript, so it is modelled as a `String`. -/
structure CacheEntry where
  data : ServicesConfig
  timestamp : Int
  etag : Option String
  source : String
  ttl : Int
deriving DecidableEq, Repr

/-- The three declared source tags of `CacheEntry.source`
(`src/types/index.ts`, line 41). -/
def declaredCacheSources : List String :=
  ["github_api", "local_yaml", "local_json"]

/-- Model of `CacheConfig` from `src/types/index.ts`. -/
structure CacheConfig where
  ttl : Int
  key : String
  enableSessionStorage : Bool
  enableMemoryCache : Bool
deriving DecidableEq, Repr

/-- Model of `DEFAULT_CACHE_CONFIG` from `src/utils/cacheManager.ts`: 4-hour TTL,
both extra tiers enabled. -/
def DEFAULT_CACHE_CONFIG : CacheConfig :=
  { ttl := 4 * 60 * 60 * 1000
    key := "asd_services_cache"
    enableSessionStorage := true
    enableMemoryCache := true }

/-! ## Cache store (`src/utils/cacheManager.ts`)

The mutable world the class touches: the module-level `memoryCache` variable,
the `localStorage` slot and the `sessionStorage` slot at `config.key`, and the
current clock value.  `setLog` is a ghost trace recording every entry written
by `set()`, used to state "set was not called" frame properties. -/

structure CacheState where
  memoryCache : Option CacheEntry
  localStorage : Option CacheEntry
  sessionStorage : Option CacheEntry
  now : Int
  setLog : List CacheEntry
deriving DecidableEq, Repr

/-- Model of `CacheManager.isValidCache`: `(now - entry.timestamp) < entry.ttl`. -/
def isValidCache (now : Int) (entry : CacheEntry) : Bool :=
  now - entry.timestamp < entry.ttl

/-- Model of `CacheManager.getFromMemory`: memory tier, with lazy purge of an invalid
entry.  Returns the result together with the updated world. -/
def getFromMemory (cfg : CacheConfig) (st : CacheState) :
    Option CacheEntry × CacheState :=
  if !cfg.enableMemoryCache then (none, st)
  else
    match st.memoryCache with
    | none => (none, st)
    | some entry =>
      if isValidCache st.now entry then (some entry, st)
      else (none, { st with memoryCache := none })

/-- Model of `CacheManager.getFromLocalStorage`: durable tier; a valid hit is copied up
into the memory tier, an invalid entry is removed. -/
def getFromLocalStorage (cfg : CacheConfig) (st : CacheState) :
    Option CacheEntry × CacheState :=
  match st.localStorage with
  | none => (none, st)
  | some entry =>
    if isValidCache st.now entry then
      (some entry,
        if cfg.enableMemoryCache then { st with memoryCache := some entry }
        else st)
    else (none, { st with localStorage := none })

/-- Model of `CacheManager.getFromSessionStorage`: session tier; no write-back. -/
def getFromSessionStorage (cfg : CacheConfig) (st : CacheState) :
    Option CacheEntry × CacheState :=
  if !cfg.enableSessionStorage then (none, st)
  else
    match st.sessionStorage with
    | none => (none, st)
    | some entry =>
      if isValidCache st.now entry then (some entry, st)
      else (none, { st with sessionStorage := none })

/-- Model of `CacheManager.get`: memory, then localStorage, then sessionStorage. -/
def cacheGet (cfg : CacheConfig) (st : CacheState) :
    Option CacheEntry × CacheState :=
  match getFromMemory cfg st with
  | (some entry, st') => (some entry, st')
  | (none, st1) =>
    match getFromLocalStorage cfg st1 with
    | (some entry, st') => (some entry, st')
    | (none, st2) => getFromSessionStorage cfg st2

/-- Model of `CacheManager.set`: write a fresh entry (timestamp `now`, configured TTL)
to every enabled tier.  The write is also recorded on the ghost `setLog`. -/
def cacheSet (cfg : CacheConfig) (st : CacheState) (data : ServicesConfig)
    (source : String) (etag : Option String) : CacheState :=
  let entry : CacheEntry :=
    { data := data, timestamp := st.now, etag := etag, source := source
      ttl := cfg.ttl }
  { st with
    memoryCache := if cfg.enableMemoryCache then some entry else st.memoryCache
    localStorage := some entry
    sessionStorage :=
      if cfg.enableSessionStorage then some entry else st.sessionStorage
    setLog := st.setLog ++ [entry] }

/-- Model of `CacheManager.clear`: remove the entry from all three tiers. -/
def cacheClear (st : CacheState) : CacheState :=
  { st with memoryCache := none, localStorage := none, sessionStorage := none }

/-- Model of `CacheManager.isNearExpiry`: a valid entry exists and its remaining
validity window is at most 30 minutes. -/
def isNearExpiry (cfg : CacheConfig) (st : CacheState) : Bool × CacheState :=
  match cacheGet cfg st with
  | (none, st') => (false, st')
  | (some cached, st') =>
    (cached.timestamp + cached.ttl - st.now ≤ 30 * 60 * 1000, st')

/-! ## Remote config fetcher (`src/utils/githubApi.ts`) -/

/-- A thrown JS exception, distinguished the way the code distinguishes them:
`Exc.err` is a plain `Error`, `Exc.typeErr` a `TypeError` (the class thrown by
a failed `fetch`).  Both are `instanceof Error` in JS. -/
inductive Exc where
  | err (msg : String)
  | typeErr (msg : String)
deriving DecidableEq, Repr

/-- Model of `error.message`. -/
def Exc.message : Exc → String
  | .err m => m
  | .typeErr m => m

/-- Model of `error instanceof TypeError`. -/
def Exc.isTypeError : Exc → Bool
  | .err _ => false
  | .typeErr _ => true

/-- The body of the GitHub contents-API response (`GitHubFileResponse`,
restricted to the fields the client reads). -/
structure GitHubFile where
  content : String
  encoding : String
deriving DecidableEq, Repr

/-- The HTTP response as observed by `fetchConfig`: status line, the three
headers it reads, and the result of `response.json()` (which may itself
throw). -/
structure HttpResponse where
  status : Nat
  statusText : String
  rateLimitRemaining : Option String
  rateLimitReset : Option String
  etagHeader : Option String
  jsonBody : Except Exc GitHubFile
deriving Repr

/-- Environment for one `fetchConfig` call: the outcome of `fetch` itself
(a response, or a thrown exception), an oracle for
`parseContent(content, encoding)` (base64 decoding plus `js-yaml` parsing and
its JSON fallback — external libraries, so supplied by the environment), and
the browser `toLocaleTimeString` formatting of a reset timestamp. -/
structure GithubEnv where
  outcome : Except Exc HttpResponse
  parseContent : String → String → Except Exc ServicesConfig
  fmtResetTime : String → String

/-- Model of `response.ok`: status in the range 200–299. -/
def responseOk (status : Nat) : Bool :=
  200 ≤ status && status ≤ 299

/-- The rate-limit error message built on HTTP 403: it embeds the
`X-RateLimit-Remaining` header (a JS `string | null`, so `null` prints as
`"null"`) and the `X-RateLimit-Reset` header formatted as a local time
(`unknown` when the header is absent or empty). -/
def rateLimitMsg (env : GithubEnv) (r : HttpResponse) : String :=
  "GitHub API rate limit exceeded. " ++
    "Remaining: " ++ jsStrOrNull r.rateLimitRemaining ++ ", Reset: " ++
    (match r.rateLimitReset with
     | some s => if s ≠ "" then env.fmtResetTime s else "unknown"
     | none => "unknown")

/-- The generic API-error message embedding the HTTP status and status text. -/
def apiErrorMsg (status : Nat) (statusText : String) : String :=
  "GitHub API error: " ++ toString status ++ " " ++ statusText

/-- The wrapped connection-failure message. -/
def networkErrMsg : String :=
  "Network error: Unable to connect to GitHub API. Check your internet connection."

/-- Successful `fetchConfig` result. -/
structure FetchOk where
  data : ServicesConfig
  etag : String
  fromCache : Bool
deriving DecidableEq, Repr

/-- The `try` block of `GitHubApiClient.fetchConfig`: 403 first, then 304
(only when a previous etag was supplied and truthy), then any other non-2xx,
then decode and parse the body. -/
def fetchConfigBody (cachedEtag : Option String) (env : GithubEnv) :
    Except Exc FetchOk :=
  match env.outcome with
  | .error e => .error e
  | .ok r =>
    if r.status == 403 then
      .error (.err (rateLimitMsg env r))
    else if r.status == 304 && jsTruthyStr cachedEtag then
      .error (.err "NOT_MODIFIED")
    else if !responseOk r.status then
      .error (.err (apiErrorMsg r.status r.statusText))
    else
      match r.jsonBody with
      | .error e => .error e
      | .ok file =>
        match env.parseContent file.content file.encoding with
        | .error e => .error e
        | .ok config =>
          .ok { data := config
                etag := (r.etagHeader.getD "")
                fromCache := false }

/-- Model of `GitHubApiClient.fetchConfig` including its `catch`: the `NOT_MODIFIED`
signal is re-thrown unchanged; a `TypeError` whose message mentions `fetch`
is wrapped into the human-readable connection message; everything else is
re-thrown as is. -/
def fetchConfig (cachedEtag : Option String) (env : GithubEnv) :
    Except Exc FetchOk :=
  match fetchConfigBody cachedEtag env with
  | .ok r => .ok r
  | .error e =>
    if e.message == "NOT_MODIFIED" then .error e
    else if e.isTypeError && jsIncludes e.message "fetch" then
      .error (.err networkErrMsg)
    else .error e

/-! ## Resolution pipeline (`src/hooks/useServices.ts`) -/

/-- Shape produced by `yaml.load` / `response.json()` for a local fallback
file before the structure check: a possibly-missing `services` field.
(An empty array is truthy in JS, so `some []` passes `!parsed.services`.) -/
structure PreConfig where
  title : Option String
  services : Option (List Service)
deriving DecidableEq, Repr

/-- Environment for one local-file fallback: whether the `fetch` of the
well-known path succeeded (`response.ok`), and the outcome of decoding its
body (`yaml.load` for the YAML file, `response.json()` for the JSON file;
`none` models a falsy parse result such as `null`). -/
structure LocalFileEnv where
  fetchOk : Bool
  parsed : Except Exc (Option PreConfig)
deriving Repr

/-- The pure outcome of `loadFromLocalYaml` before the cache write:
fetch failure, parse failure and structure check, in source order. -/
def localYamlResult (env : LocalFileEnv) : Except Exc ServicesConfig :=
  if !env.fetchOk then
    .error (.err "Failed to fetch local YAML configuration")
  else
    match env.parsed with
    | .error e => .error e
    | .ok none => .error (.err "Invalid YAML configuration structure")
    | .ok (some p) =>
      match p.services with
      | none => .error (.err "Invalid YAML configuration structure")
      | some l => .ok { title := p.title, services := l }

/-- The pure outcome of `loadFromLocalJson` before the cache write. -/
def localJsonResult (env : LocalFileEnv) : Except Exc ServicesConfig :=
  if !env.fetchOk then
    .error (.err "Failed to fetch local JSON configuration")
  else
    match env.parsed with
    | .error e => .error e
    | .ok none => .error (.err "Invalid JSON configuration structure")
    | .ok (some p) =>
      match p.services with
      | none => .error (.err "Invalid JSON configuration structure")
      | some l => .ok { title := p.title, services := l }

/-- Model of `loadFromGitHub` in `useServices.ts`: on success cache the response under
the `github_api` tag with the response etag; the `NOT_MODIFIED` signal is
converted into a `null` result; every other failure is re-thrown. -/
def loadFromGitHub (cachedEtag : Option String) (genv : GithubEnv)
    (cfg : CacheConfig) (st : CacheState) :
    Except Exc (Option ServicesConfig) × CacheState :=
  match fetchConfig cachedEtag genv with
  | .ok r => (.ok (some r.data), cacheSet cfg st r.data "github_api" (some r.etag))
  | .error e =>
    if e.message == "NOT_MODIFIED" then (.ok none, st)
    else (.error e, st)

/-- Model of `loadFromLocalYaml`: on success cache under `local_yaml` (no etag). -/
def loadFromLocalYaml (env : LocalFileEnv) (cfg : CacheConfig)
    (st : CacheState) : Except Exc ServicesConfig × CacheState :=
  match localYamlResult env with
  | .ok c => (.ok c, cacheSet cfg st c "local_yaml" none)
  | .error e => (.error e, st)

/-- Model of `loadFromLocalJson`: on success cache under `local_json` (no etag). -/
def loadFromLocalJson (env : LocalFileEnv) (cfg : CacheConfig)
    (st : CacheState) : Except Exc ServicesConfig × CacheState :=
  match localJsonResult env with
  | .ok c => (.ok c, cacheSet cfg st c "local_json" none)
  | .error e => (.error e, st)

/-- External outcomes for one run of `fetchServices`: the step-2 GitHub call,
the background-refresh GitHub call, and the two local files. -/
structure AppEnv where
  githubMain : GithubEnv
  githubRefresh : GithubEnv
  localYaml : LocalFileEnv
  localJson : LocalFileEnv

/-- The React state owned by `useServices`, the cache world, and a ghost trace
of the `console.warn`/`console.error` messages emitted by `fetchServices`. -/
structure AppState where
  services : List Service
  loading : Bool
  error : Option String
  cache : CacheState
  log : List String

/-- The terminal error surfaced when every source has failed
(`useServices.ts`, line 136). -/
def allSourcesFailedMsg : String :=
  "Unable to load services configuration from any source"

/-- Model of `fetchServices` in `useServices.ts`: cache check with background refresh,
then GitHub, then local YAML, then local JSON; every intermediate failure is
caught and logged, and only total exhaustion reaches the outer `catch`, which
surfaces the terminal message as the error state. -/
def fetchServices (cfg : CacheConfig) (env : AppEnv) (st0 : AppState) :
    AppState :=
  let st := { st0 with loading := true, error := none }
  match cacheGet cfg st.cache with
  | (some cached, c1) =>
    -- Step 1: valid cache: yield it, then maybe refresh in the background.
    let st1 := { st with
      services := cached.data.services, loading := false, cache := c1 }
    match isNearExpiry cfg st1.cache with
    | (true, c2) =>
      let st2 := { st1 with cache := c2 }
      match loadFromGitHub cached.etag env.githubRefresh cfg st2.cache with
      | (.ok (some refreshed), c3) =>
        { st2 with services := refreshed.services, cache := c3 }
      | (.ok none, c3) => { st2 with cache := c3 }
      | (.error _, c3) =>
        { st2 with cache := c3, log := st2.log ++ ["Background refresh failed:"] }
    | (false, c2) => { st1 with cache := c2 }
  | (none, c1) =>
    -- Step 2: GitHub API.
    let stepThree : AppState → AppState := fun s =>
      -- Step 3: local YAML file.
      match loadFromLocalYaml env.localYaml cfg s.cache with
      | (.ok yamlData, c') =>
        { s with services := yamlData.services, loading := false, cache := c' }
      | (.error _, c') =>
        let s3 := { s with
          cache := c',
          log := s.log ++ ["Local YAML unavailable, trying JSON fallback:"] }
        -- Step 4: local JSON file, the final fallback.
        match loadFromLocalJson env.localJson cfg s3.cache with
        | (.ok jsonData, c'') =>
          { s3 with services := jsonData.services, loading := false, cache := c'' }
        | (.error _, c'') =>
          -- The thrown terminal error reaches the outer catch.
          { s3 with
            cache := c'',
            log := s3.log ++ ["All configuration sources failed:"],
            error := some allSourcesFailedMsg,
            loading := false }
    let st1 := { st with cache := c1 }
    match loadFromGitHub none env.githubMain cfg st1.cache with
    | (.ok (some githubData), c2) =>
      { st1 with services := githubData.services, loading := false, cache := c2 }
    | (.ok none, c2) => stepThree { st1 with cache := c2 }
    | (.error _, c2) =>
      stepThree { st1 with
        cache := c2,
        log := st1.log ++ ["GitHub API unavailable, trying local files:"] }

/-- The manual `refresh`: clear the cache unconditionally, re-run the full
resolution. -/
def refreshServices (cfg : CacheConfig) (env : AppEnv) (st : AppState) :
    AppState :=
  fetchServices cfg env { st with cache := cacheClear st.cache }

/-! ## Config validator (`src/utils/settingsManager.ts`) -/

/-- Model of `SettingsValidationResult`: `warnings` is an optional field in TypeScript
and is omitted when empty, hence the `Option`. -/
structure SettingsValidationResult where
  isValid : Bool
  errors : List String
  warnings : Option (List String)
deriving DecidableEq, Repr

/-- One element of the parsed `services` sequence, before validation: every
field may be missing (and an empty string is falsy, like a missing field). -/
structure ParsedService where
  id : Option String
  name : Option String
  url : Option String
  description : Option String
deriving DecidableEq, Repr

/-- The shape of the `services` property of a parsed document: absent (or
falsy), present but not an array, or an array. -/
inductive ServicesField where
  | missing
  | notArray
  | array (l : List ParsedService)
deriving DecidableEq, Repr

/-- A truthy value returned by `yaml.load`, restricted to the fields the
validator reads. -/
structure ParsedYaml where
  title : Option String
  services : ServicesField
deriving DecidableEq, Repr

/-- The outcome of `yaml.load content`: a thrown message, a falsy value
(`none`), or a document. -/
abbrev YamlOutcome := Except String (Option ParsedYaml)

/-- Validation error for a missing required field of service `i` (1-based in
the message, as in the source: `Service ${index + 1}: ...`). -/
def missingFieldError (oneBased : Nat) (field : String) : String :=
  "Service " ++ toString oneBased ++ ": Missing required \"" ++ field ++
    "\" property"

/-- Validation warning for a missing `description` of service `i`. -/
def missingDescriptionWarning (oneBased : Nat) : String :=
  "Service " ++ toString oneBased ++ ": Missing \"description\" property"

/-- The warning suggested when the document has no `title`. -/
def titleWarning : String :=
  "Consider adding a \"title\" property for the dashboard"

/-- The errors contributed by one service at 0-based index `i`
(`forEach` body, error pushes). -/
def serviceErrorsAt (i : Nat) (s : ParsedService) : List String :=
  (if jsTruthyStr s.id then [] else [missingFieldError (i + 1) "id"]) ++
  (if jsTruthyStr s.name then [] else [missingFieldError (i + 1) "name"]) ++
  (if jsTruthyStr s.url then [] else [missingFieldError (i + 1) "url"])

/-- The warnings contributed by one service at 0-based index `i`
(`forEach` body, warning push). -/
def serviceWarningsAt (i : Nat) (s : ParsedService) : List String :=
  if jsTruthyStr s.description then [] else [missingDescriptionWarning (i + 1)]

/-- Model of `SettingsManager.validateYamlContent`.  The `yaml.load` call is supplied
as `outcome`. -/
def validateYamlContent (content : String) (outcome : YamlOutcome) :
    SettingsValidationResult :=
  if jsTrim content == "" then
    { isValid := false, errors := ["YAML content cannot be empty"],
      warnings := none }
  else
    match outcome with
    | .error msg =>
      { isValid := false,
        errors := ["YAML parsing error: " ++ msg],
        warnings := none }
    | .ok none =>
      { isValid := false, errors := ["Invalid YAML format"], warnings := none }
    | .ok (some parsed) =>
      let errors :=
        match parsed.services with
        | .missing => ["YAML must contain a \"services\" property"]
        | .notArray => ["Services must be an array"]
        | .array l => (l.enum.map fun p => serviceErrorsAt p.1 p.2).flatten
      let warnings :=
        (match parsed.services with
         | .array l => (l.enum.map fun p => serviceWarningsAt p.1 p.2).flatten
         | _ => []) ++
        (if jsTruthyStr parsed.title then [] else [titleWarning])
      { isValid := errors.isEmpty,
        errors := errors,
        warnings := if warnings.isEmpty then none else some warnings }

/-- Model of `SettingsManager.parseYamlToConfig`: `null` when validation failed,
otherwise the result of re-parsing the same content (which, validation having
succeeded, is the same document). -/
def parseYamlToConfig (content : String) (outcome : YamlOutcome) :
    Option ParsedYaml :=
  if (validateYamlContent content outcome).isValid then
    match outcome with
    | .ok p => p
    | .error _ => none
  else none

/-! ## Grid navigation math (`src/utils/navigationUtils.ts`)

JS arithmetic notes: `Math.floor(a / b)` on integers is flooring division
(`Int.fdiv`), while the `%` operator is truncating remainder (`Int.tmod`);
the two disagree on negative operands, and `getPositionFromIndex` uses one of
each, so both are modelled exactly. -/

structure GridDimensions where
  columns : Nat
  rows : Nat
  totalItems : Nat
deriving DecidableEq, Repr

/-- Model of `getGridColumns`: breakpoint-dependent column count (5 during SSR when no
`window` exists, modelled as `none`). -/
def getGridColumns (windowWidth : Option Nat) : Nat :=
  match windowWidth with
  | none => 5
  | some width =>
    if width < 768 then 2
    else if width < 1024 then 3
    else if width < 1280 then 4
    else 5

/-- Model of `calculateGridDimensions`: `Math.ceil(itemCount / columns)` rows. -/
def calculateGridDimensions (itemCount : Nat) (windowWidth : Option Nat) :
    GridDimensions :=
  let columns := getGridColumns windowWidth
  { columns := columns
    rows := (itemCount + columns - 1) / columns
    totalItems := itemCount }

/-- Model of `getIndexFromPosition`: `row * columns + col`. -/
def getIndexFromPosition (row col : Int) (columns : Nat) : Int :=
  row * columns + col

/-- Model of `getPositionFromIndex`: `Math.floor(index / columns)` row and
`index % columns` column. -/
def getPositionFromIndex (index : Int) (columns : Nat) : Int × Int :=
  (Int.fdiv index columns, Int.tmod index columns)

inductive TabDirection where
  | forward
  | backward
deriving DecidableEq, Repr

inductive ArrowDirection where
  | up
  | down
  | left
  | right
deriving DecidableEq, Repr

/-- Model of `getNextTabIndex`: cyclic forward/backward step over `totalItems` items
(`-1` is the unfocused state; JS `%` is truncating remainder). -/
def getNextTabIndex (currentIndex : Int) (totalItems : Nat)
    (direction : TabDirection) : Int :=
  if totalItems = 0 then -1
  else
    match direction with
    | .forward => Int.tmod (currentIndex + 1) totalItems
    | .backward =>
      if currentIndex ≤ 0 then (totalItems : Int) - 1 else currentIndex - 1

/-- Model of `getArrowNavigationIndex`: move one grid cell, clamping at the edges, then
clamp to the last item. -/
def getArrowNavigationIndex (currentIndex : Int) (direction : ArrowDirection)
    (g : GridDimensions) : Int :=
  if g.totalItems = 0 then -1
  else
    let pos := getPositionFromIndex currentIndex g.columns
    let row := pos.1
    let col := pos.2
    let newRow :=
      match direction with
      | .up => max 0 (row - 1)
      | .down => min ((g.rows : Int) - 1) (row + 1)
      | .left => row
      | .right => row
    let newCol :=
      match direction with
      | .up => col
      | .down => col
      | .left => max 0 (col - 1)
      | .right => min ((g.columns : Int) - 1) (col + 1)
    min (getIndexFromPosition newRow newCol g.columns) ((g.totalItems : Int) - 1)

/-- Model of `findServiceIndex`: `findIndex` on matching `id`, `-1` when absent. -/
def findServiceIndex (service : Service) (services : List Service) : Int :=
  match services.findIdx? (fun s => s.id == service.id) with
  | some i => (i : Int)
  | none => -1

/-! ## Search / focus state machine (`src/hooks/useKeyboardSearch.ts`)

The `SearchState` record of the hook plus the transition functions.  JS
`filtered.includes(obj)` compares object references; in this model services
are compared by value, which coincides as long as the service list holds no
two identical entries (all services here originate from one array). -/

structure SearchState where
  searchTerm : String
  filteredServices : List Service
  isSearching : Bool
  shouldPulseHighlighted : Bool
  focusedIndex : Int
  focusedService : Option Service
deriving DecidableEq, Repr

/-- The initial hook state, also the state restored by every full reset. -/
def resetSearchState (services : List Service) : SearchState :=
  { searchTerm := ""
    filteredServices := services
    isSearching := false
    shouldPulseHighlighted := false
    focusedIndex := -1
    focusedService := none }

/-- JS `servicesList[index] || null` for an `Int` index: `null` on a negative
or out-of-range index. -/
def listGetInt (l : List Service) (index : Int) : Option Service :=
  if index < 0 then none else l.get? index.toNat

/-- Model of `updateFocusedService`: the two focus fields derived from an index. -/
def updateFocusedService (index : Int) (servicesList : List Service) :
    Int × Option Service :=
  (index, listGetInt servicesList index)

/-- Model of `handleTabNavigation`: cyclic focus move over the active list
(filtered while searching, else the full list). -/
def handleTabNavigation (services : List Service) (direction : TabDirection)
    (prev : SearchState) : SearchState :=
  let activeServices :=
    if prev.isSearching then prev.filteredServices else services
  let newIndex := getNextTabIndex prev.focusedIndex activeServices.length direction
  let focus := updateFocusedService newIndex activeServices
  { prev with focusedIndex := focus.1, focusedService := focus.2 }

/-- Model of `handleArrowNavigation`: grid move over the active list. -/
def handleArrowNavigation (services : List Service)
    (windowWidth : Option Nat) (direction : ArrowDirection)
    (prev : SearchState) : SearchState :=
  let activeServices :=
    if prev.isSearching then prev.filteredServices else services
  let gridDimensions := calculateGridDimensions activeServices.length windowWidth
  let newIndex := getArrowNavigationIndex prev.focusedIndex direction gridDimensions
  let focus := updateFocusedService newIndex activeServices
  { prev with focusedIndex := focus.1, focusedService := focus.2 }

/-- The match predicate of `filterServices`: case-insensitive substring match
of the term against name or description. -/
def serviceMatches (term : String) (service : Service) : Bool :=
  jsIncludes service.name.toLower term.toLower ||
    jsIncludes service.description.toLower term.toLower

/-- Model of `filterServices`: the full list for a falsy (empty) term, otherwise
`Array.prototype.filter` with the name/description match. -/
def filterServices (services : List Service) (term : String) : List Service :=
  if term == "" then services
  else services.filter (serviceMatches term)

/-- The state rebuilt after the search term changes (shared tail of the
Backspace and letter branches): focus is preserved when the previously
focused service survives into the new filtered list, else cleared. -/
def searchStateAfterTermChange (prev : SearchState) (newTerm : String)
    (filtered : List Service) : SearchState :=
  let base : SearchState :=
    { searchTerm := newTerm
      filteredServices := filtered
      isSearching := true
      shouldPulseHighlighted := false
      focusedIndex := -1
      focusedService := none }
  match prev.focusedService with
  | some svc =>
    if filtered.contains svc then
      { base with
        focusedIndex := findServiceIndex svc filtered,
        focusedService := some svc }
    else base
  | none => base

/-- The character class accepted as search input
(`/^[a-zA-Z\s]$/` on `event.key`). -/
def isSearchChar (c : Char) : Bool :=
  ('a' ≤ c && c ≤ 'z') || ('A' ≤ c && c ≤ 'Z') ||
    c == ' ' || c == '\t' || c == '\n' || c == '\r'

/-- A key event already past the modifier / function-key guards of
`handleKeyPress` (events carrying Ctrl/Cmd/Alt and function or navigation
keys return before touching the state, so they are not represented). -/
inductive KeyEvent where
  | tab (shift : Bool)
  | arrow (d : ArrowDirection)
  | escape
  | enter
  | backspace
  | char (c : Char)
deriving DecidableEq, Repr

/-- The state transition of `handleKeyPress` (side effects — `preventDefault`,
`window.open`, timers — are outside the state).  `services` is the live
service list, `windowWidth` the viewport width used for the grid. -/
def handleKeyPress (services : List Service) (windowWidth : Option Nat)
    (ev : KeyEvent) (st : SearchState) : SearchState :=
  match ev with
  | .tab shift =>
    handleTabNavigation services
      (if shift then TabDirection.backward else TabDirection.forward) st
  | .arrow d => handleArrowNavigation services windowWidth d st
  | .escape =>
    if st.isSearching then resetSearchState services
    else { st with focusedIndex := -1, focusedService := none }
  | .enter =>
    if st.focusedService.isSome then st
    else if st.isSearching then
      if st.filteredServices.length == 1 then resetSearchState services
      else if st.filteredServices.length > 1 then
        { st with shouldPulseHighlighted := true }
      else st
    else st
  | .backspace =>
    if st.isSearching then
      let newSearchTerm := st.searchTerm.dropRight 1
      if newSearchTerm == "" then resetSearchState services
      else
        searchStateAfterTermChange st newSearchTerm
          (filterServices services newSearchTerm)
    else st
  | .char c =>
    if isSearchChar c then
      let newSearchTerm := st.searchTerm.push c
      searchStateAfterTermChange st newSearchTerm
        (filterServices services newSearchTerm)
    else st

/-- A whole key-event history applied from the initial state. -/
def runKeyEvents (services : List Service) (windowWidth : Option Nat)
    (evs : List KeyEvent) : SearchState :=
  evs.foldl (fun st ev => handleKeyPress services windowWidth ev st)
    (resetSearchState services)

/-! ## Helper lemmas: one equation per branch of each cache tier read -/

lemma getFromMemory_of_valid {cfg : CacheConfig} {st : CacheState} {e : CacheEntry}
    (he : cfg.enableMemoryCache = true) (hm : st.memoryCache = some e)
    (hv : isValidCache st.now e = true) : getFromMemory cfg st = (some e, st) := by
  simp [getFromMemory, he, hm, hv]

lemma getFromMemory_of_disabled {cfg : CacheConfig} {st : CacheState}
    (he : cfg.enableMemoryCache = false) : getFromMemory cfg st = (none, st) := by
  simp [getFromMemory, he]

lemma getFromMemory_of_none {cfg : CacheConfig} {st : CacheState}
    (hm : st.memoryCache = none) : getFromMemory cfg st = (none, st) := by
  unfold getFromMemory
  split
  · rfl
  · rw [hm]

lemma getFromMemory_of_invalid {cfg : CacheConfig} {st : CacheState} {e : CacheEntry}
    (he : cfg.enableMemoryCache = true) (hm : st.memoryCache = some e)
    (hv : isValidCache st.now e = false) :
    getFromMemory cfg st = (none, { st with memoryCache := none }) := by
  simp [getFromMemory, he, hm, hv]

lemma getFromLocalStorage_of_valid {cfg : CacheConfig} {st : CacheState} {e : CacheEntry}
    (hl : st.localStorage = some e) (hv : isValidCache st.now e = true) :
    getFromLocalStorage cfg st =
      (some e, if cfg.enableMemoryCache then { st with memoryCache := some e } else st) := by
  simp [getFromLocalStorage, hl, hv]

lemma getFromLocalStorage_of_none {cfg : CacheConfig} {st : CacheState}
    (hl : st.localStorage = none) : getFromLocalStorage cfg st = (none, st) := by
  simp [getFromLocalStorage, hl]

lemma getFromLocalStorage_of_invalid {cfg : CacheConfig} {st : CacheState} {e : CacheEntry}
    (hl : st.localStorage = some e) (hv : isValidCache st.now e = false) :
    getFromLocalStorage cfg st = (none, { st with localStorage := none }) := by
  simp [getFromLocalStorage, hl, hv]

lemma getFromSessionStorage_of_valid {cfg : CacheConfig} {st : CacheState} {e : CacheEntry}
    (he : cfg.enableSessionStorage = true) (hs : st.sessionStorage = some e)
    (hv : isValidCache st.now e = true) : getFromSessionStorage cfg st = (some e, st) := by
  simp [getFromSessionStorage, he, hs, hv]

lemma getFromSessionStorage_of_disabled {cfg : CacheConfig} {st : CacheState}
    (he : cfg.enableSessionStorage = false) : getFromSessionStorage cfg st = (none, st) := by
  simp [getFromSessionStorage, he]

lemma getFromSessionStorage_of_none {cfg : CacheConfig} {st : CacheState}
    (hs : st.sessionStorage = none) : getFromSessionStorage cfg st = (none, st) := by
  unfold getFromSessionStorage
  split
  · rfl
  · rw [hs]

lemma getFromSessionStorage_of_invalid {cfg : CacheConfig} {st : CacheState} {e : CacheEntry}
    (he : cfg.enableSessionStorage = true) (hs : st.sessionStorage = some e)
    (hv : isValidCache st.now e = false) :
    getFromSessionStorage cfg st = (none, { st with sessionStorage := none }) := by
  simp [getFromSessionStorage, he, hs, hv]

/-! ## Composite equations for `cacheGet` -/

lemma cacheGet_of_memory_valid {cfg : CacheConfig} {st : CacheState} {e : CacheEntry}
    (he : cfg.enableMemoryCache = true) (hm : st.memoryCache = some e)
    (hv : isValidCache st.now e = true) : cacheGet cfg st = (some e, st) := by
  unfold cacheGet
  rw [getFromMemory_of_valid he hm hv]

lemma cacheGet_of_local_valid {cfg : CacheConfig} {st : CacheState} {e : CacheEntry}
    (hmem : cfg.enableMemoryCache = false ∨ st.memoryCache = none)
    (hl : st.localStorage = some e) (hv : isValidCache st.now e = true) :
    cacheGet cfg st =
      (some e, if cfg.enableMemoryCache then { st with memoryCache := some e } else st) := by
  unfold cacheGet
  rcases hmem with h | h
  · rw [getFromMemory_of_disabled h]
    simp only []
    rw [getFromLocalStorage_of_valid hl hv]
  · rw [getFromMemory_of_none h]
    simp only []
    rw [getFromLocalStorage_of_valid hl hv]

lemma cacheGet_of_session_valid {cfg : CacheConfig} {st : CacheState} {e : CacheEntry}
    (hmem : cfg.enableMemoryCache = false ∨ st.memoryCache = none)
    (hl : st.localStorage = none) (he : cfg.enableSessionStorage = true)
    (hs : st.sessionStorage = some e) (hv : isValidCache st.now e = true) :
    cacheGet cfg st = (some e, st) := by
  unfold cacheGet
  rcases hmem with h | h
  · rw [getFromMemory_of_disabled h]
    simp only []
    rw [getFromLocalStorage_of_none hl]
    simp only []
    rw [getFromSessionStorage_of_valid he hs hv]
  · rw [getFromMemory_of_none h]
    simp only []
    rw [getFromLocalStorage_of_none hl]
    simp only []
    rw [getFromSessionStorage_of_valid he hs hv]

/-- A memory-tier purge does not change the overall `get` result. -/
lemma cacheGet_purge_memory {cfg : CacheConfig} {st : CacheState} {m : CacheEntry}
    (he : cfg.enableMemoryCache = true) (hm : st.memoryCache = some m)
    (hv : isValidCache st.now m = false) :
    cacheGet cfg st = cacheGet cfg { st with memoryCache := none } := by
  unfold cacheGet
  rw [getFromMemory_of_invalid he hm hv,
    @getFromMemory_of_none cfg { st with memoryCache := none } rfl]

/-- A durable-tier purge does not change the overall `get` result, provided
the memory tier already missed without a state change. -/
lemma cacheGet_purge_local {cfg : CacheConfig} {st : CacheState} {l : CacheEntry}
    (hmem : cfg.enableMemoryCache = false ∨ st.memoryCache = none)
    (hl : st.localStorage = some l) (hv : isValidCache st.now l = false) :
    cacheGet cfg st = cacheGet cfg { st with localStorage := none } := by
  unfold cacheGet
  rcases hmem with h | h
  · rw [getFromMemory_of_disabled h,
      @getFromMemory_of_disabled cfg { st with localStorage := none } h]
    simp only []
    rw [getFromLocalStorage_of_invalid hl hv,
      @getFromLocalStorage_of_none cfg { st with localStorage := none } rfl]
  · rw [getFromMemory_of_none h,
      @getFromMemory_of_none cfg { st with localStorage := none } (by simp [h])]
    simp only []
    rw [getFromLocalStorage_of_invalid hl hv,
      @getFromLocalStorage_of_none cfg { st with localStorage := none } rfl]

/-- Model of `get` restricted to states whose memory tier misses and whose durable slot
is empty: it reduces to the session tier read. -/
lemma cacheGet_session_only {cfg : CacheConfig} {st : CacheState}
    (hmem : cfg.enableMemoryCache = false ∨ st.memoryCache = none)
    (hl : st.localStorage = none) :
    cacheGet cfg st = getFromSessionStorage cfg st := by
  unfold cacheGet
  rcases hmem with h | h
  · rw [getFromMemory_of_disabled h]
    simp only []
    rw [getFromLocalStorage_of_none hl]
  · rw [getFromMemory_of_none h]
    simp only []
    rw [getFromLocalStorage_of_none hl]

/-- Model of `get` is idempotent after a hit, re-reading from the session tier. -/
lemma cacheGet_idem_session {cfg : CacheConfig} {st st' : CacheState} {e : CacheEntry}
    (hmem : cfg.enableMemoryCache = false ∨ st.memoryCache = none)
    (hl : st.localStorage = none)
    (h : cacheGet cfg st = (some e, st')) : cacheGet cfg st' = (some e, st') := by
  rw [cacheGet_session_only hmem hl] at h
  by_cases he : cfg.enableSessionStorage
  · rcases hs : st.sessionStorage with _ | x
    · rw [getFromSessionStorage_of_none hs] at h
      simp at h
    · by_cases hv : isValidCache st.now x
      · rw [getFromSessionStorage_of_valid he hs hv] at h
        simp only [Prod.mk.injEq, Option.some.injEq] at h
        rw [← h.2, ← h.1] at *
        exact cacheGet_of_session_valid hmem hl he hs hv
      · rw [getFromSessionStorage_of_invalid he hs (by simpa using hv)] at h
        simp at h
  · rw [getFromSessionStorage_of_disabled (by simpa using he)] at h
    simp at h

/-- Model of `get` is idempotent after a hit, re-reading from the durable tier on. -/
lemma cacheGet_idem_local {cfg : CacheConfig} {st st' : CacheState} {e : CacheEntry}
    (hmem : cfg.enableMemoryCache = false ∨ st.memoryCache = none)
    (h : cacheGet cfg st = (some e, st')) : cacheGet cfg st' = (some e, st') := by
  rcases hl : st.localStorage with _ | l
  · exact cacheGet_idem_session hmem hl h
  · by_cases hv : isValidCache st.now l
    · rw [cacheGet_of_local_valid hmem hl hv] at h
      simp only [Prod.mk.injEq, Option.some.injEq] at h
      by_cases hme : cfg.enableMemoryCache
      · rw [hme] at h
        simp only [if_true] at h
        rw [← h.2, ← h.1]
        exact cacheGet_of_memory_valid hme rfl (by simpa using hv)
      · have hme' : cfg.enableMemoryCache = false := by simpa using hme
        rw [hme'] at h
        simp only [Bool.false_eq_true, if_false] at h
        rw [← h.2, ← h.1]
        exact cacheGet_of_local_valid (Or.inl hme') hl hv |>.trans (by rw [hme']; simp)
    · have hv' : isValidCache st.now l = false := by simpa using hv
      rw [cacheGet_purge_local hmem hl hv'] at h
      have hmem2 : cfg.enableMemoryCache = false ∨
          ({ st with localStorage := none } : CacheState).memoryCache = none := by
        rcases hmem with hx | hx
        · exact Or.inl hx
        · exact Or.inr (by simp [hx])
      exact cacheGet_idem_session hmem2 rfl h

/-- Model of `CacheManager.get` is idempotent after a hit: reading again returns the
same entry and leaves the state unchanged. -/
lemma cacheGet_idem {cfg : CacheConfig} {st st' : CacheState} {e : CacheEntry}
    (h : cacheGet cfg st = (some e, st')) : cacheGet cfg st' = (some e, st') := by
  by_cases hme : cfg.enableMemoryCache
  · rcases hmc : st.memoryCache with _ | m
    · exact cacheGet_idem_local (Or.inr hmc) h
    · by_cases hmv : isValidCache st.now m
      · rw [cacheGet_of_memory_valid hme hmc hmv] at h
        simp only [Prod.mk.injEq, Option.some.injEq] at h
        rw [← h.2, ← h.1]
        exact cacheGet_of_memory_valid hme hmc hmv
      · rw [cacheGet_purge_memory hme hmc (by simpa using hmv)] at h
        exact cacheGet_idem_local (Or.inr rfl) h
  · exact cacheGet_idem_local (Or.inl (by simpa using hme)) h

/-- Model of `get` never touches the clock or the ghost write trace: session-tier part. -/
lemma cacheGet_frame_session {cfg : CacheConfig} {st : CacheState}
    (hmem : cfg.enableMemoryCache = false ∨ st.memoryCache = none)
    (hl : st.localStorage = none) :
    ((cacheGet cfg st).2).now = st.now ∧
      ((cacheGet cfg st).2).setLog = st.setLog := by
  rw [cacheGet_session_only hmem hl]
  by_cases he : cfg.enableSessionStorage
  · rcases hs : st.sessionStorage with _ | x
    · rw [getFromSessionStorage_of_none hs]
      exact ⟨rfl, rfl⟩
    · by_cases hv : isValidCache st.now x
      · rw [getFromSessionStorage_of_valid he hs hv]
        exact ⟨rfl, rfl⟩
      · rw [getFromSessionStorage_of_invalid he hs (by simpa using hv)]
        exact ⟨rfl, rfl⟩
  · rw [getFromSessionStorage_of_disabled (by simpa using he)]
    exact ⟨rfl, rfl⟩

/-- Model of `get` never touches the clock or the ghost write trace: durable-tier part. -/
lemma cacheGet_frame_local {cfg : CacheConfig} {st : CacheState}
    (hmem : cfg.enableMemoryCache = false ∨ st.memoryCache = none) :
    ((cacheGet cfg st).2).now = st.now ∧
      ((cacheGet cfg st).2).setLog = st.setLog := by
  rcases hl : st.localStorage with _ | l
  · exact cacheGet_frame_session hmem hl
  · by_cases hv : isValidCache st.now l
    · rw [cacheGet_of_local_valid hmem hl hv]
      by_cases hme : cfg.enableMemoryCache
      · simp [hme]
      · simp [by simpa using hme]
    · rw [cacheGet_purge_local hmem hl (by simpa using hv)]
      have h2 : cfg.enableMemoryCache = false ∨
          ({ st with localStorage := none } : CacheState).memoryCache = none := by
        rcases hmem with hx | hx
        · exact Or.inl hx
        · exact Or.inr (by simp [hx])
      exact cacheGet_frame_session h2 rfl

/-- Model of `CacheManager.get` never changes the clock or the ghost write trace: it
only purges or promotes entries. -/
lemma cacheGet_frame {cfg : CacheConfig} {st : CacheState} :
    ((cacheGet cfg st).2).now = st.now ∧
      ((cacheGet cfg st).2).setLog = st.setLog := by
  by_cases hme : cfg.enableMemoryCache
  · rcases hmc : st.memoryCache with _ | m
    · exact cacheGet_frame_local (Or.inr hmc)
    · by_cases hmv : isValidCache st.now m
      · rw [cacheGet_of_memory_valid hme hmc hmv]
        exact ⟨rfl, rfl⟩
      · rw [cacheGet_purge_memory hme hmc (by simpa using hmv)]
        exact cacheGet_frame_local (Or.inr rfl)
  · exact cacheGet_frame_local (Or.inl (by simpa using hme))

/-- C3: `CacheManager.get` consults memory, then localStorage, then
sessionStorage, in that order, and returns the first valid entry.  A valid
memory hit causes no write at all; a valid durable hit is copied up into the
memory tier; an expired entry found in a tier is purged from exactly that tier
before the next tier is consulted (visible in the resulting states below);
when no tier holds a valid entry the result is `none` with all expired
entries purged. -/
theorem cacheGet_tier_order (st : CacheState) :
    (∀ e, st.memoryCache = some e → isValidCache st.now e = true →
      cacheGet DEFAULT_CACHE_CONFIG st = (some e, st)) ∧
    (∀ e, (∀ m, st.memoryCache = some m → isValidCache st.now m = false) →
      st.localStorage = some e → isValidCache st.now e = true →
      cacheGet DEFAULT_CACHE_CONFIG st =
        (some e, { st with memoryCache := some e })) ∧
    (∀ e, (∀ m, st.memoryCache = some m → isValidCache st.now m = false) →
      (∀ l, st.localStorage = some l → isValidCache st.now l = false) →
      st.sessionStorage = some e → isValidCache st.now e = true →
      cacheGet DEFAULT_CACHE_CONFIG st =
        (some e, { st with memoryCache := none, localStorage := none })) ∧
    ((∀ m, st.memoryCache = some m → isValidCache st.now m = false) →
      (∀ l, st.localStorage = some l → isValidCache st.now l = false) →
      (∀ s, st.sessionStorage = some s → isValidCache st.now s = false) →
      cacheGet DEFAULT_CACHE_CONFIG st =
        (none, { st with memoryCache := none
                         localStorage := none
                         sessionStorage := none })) := by
  obtain ⟨mem, loc, sess, tnow, tlog⟩ := st
  refine ⟨?_, ?_, ?_, ?_⟩
  · intro e hm hv
    exact cacheGet_of_memory_valid rfl hm hv
  · intro e hmem hl hv
    cases hm : mem with
    | none =>
      subst hm
      rw [cacheGet_of_local_valid (Or.inr rfl) hl hv]
      simp [DEFAULT_CACHE_CONFIG]
    | some m =>
      subst hm
      rw [cacheGet_purge_memory rfl rfl (hmem m rfl)]
      rw [@cacheGet_of_local_valid DEFAULT_CACHE_CONFIG
        ⟨none, loc, sess, tnow, tlog⟩ e (Or.inr rfl) hl hv]
      simp [DEFAULT_CACHE_CONFIG]
  · intro e hmem hloc hs hv
    have step1 : cacheGet DEFAULT_CACHE_CONFIG
        (⟨mem, loc, sess, tnow, tlog⟩ : CacheState) =
        cacheGet DEFAULT_CACHE_CONFIG (⟨none, loc, sess, tnow, tlog⟩ : CacheState) := by
      cases hm : mem with
      | none => subst hm; rfl
      | some m =>
        subst hm
        exact cacheGet_purge_memory rfl rfl (hmem m rfl)
    rw [step1]
    cases hl : loc with
    | none =>
      subst hl
      exact cacheGet_of_session_valid (Or.inr rfl) rfl rfl hs hv
    | some l =>
      subst hl
      rw [@cacheGet_purge_local DEFAULT_CACHE_CONFIG
        ⟨none, some l, sess, tnow, tlog⟩ l (Or.inr rfl) rfl (hloc l rfl)]
      exact cacheGet_of_session_valid (Or.inr rfl) rfl rfl hs hv
  · intro hmem hloc hsess
    have step1 : cacheGet DEFAULT_CACHE_CONFIG
        (⟨mem, loc, sess, tnow, tlog⟩ : CacheState) =
        cacheGet DEFAULT_CACHE_CONFIG (⟨none, loc, sess, tnow, tlog⟩ : CacheState) := by
      cases hm : mem with
      | none => subst hm; rfl
      | some m =>
        subst hm
        exact cacheGet_purge_memory rfl rfl (hmem m rfl)
    rw [step1]
    have step2 : cacheGet DEFAULT_CACHE_CONFIG
        (⟨none, loc, sess, tnow, tlog⟩ : CacheState) =
        cacheGet DEFAULT_CACHE_CONFIG (⟨none, none, sess, tnow, tlog⟩ : CacheState) := by
      cases hl : loc with
      | none => subst hl; rfl
      | some l =>
        subst hl
        exact cacheGet_purge_local (Or.inr rfl) rfl (hloc l rfl)
    rw [step2]
    rw [cacheGet_session_only (Or.inr rfl) rfl]
    have hds : DEFAULT_CACHE_CONFIG.enableSessionStorage = true := rfl
    cases hsc : sess with
    | none =>
      subst hsc
      rw [getFromSessionStorage_of_none rfl]
    | some s =>
      subst hsc
      rw [@getFromSessionStorage_of_invalid DEFAULT_CACHE_CONFIG
        ⟨none, none, some s, tnow, tlog⟩ s hds rfl (hsess s rfl)]

/-- C4: `isValidCache` returns true exactly when `now - timestamp < ttl`;
an entry with `ttl = 0` is never valid once any time has elapsed; and an
invalid entry is treated as absent by every read path (each tier read and the
combined `get` return nothing for it). -/
theorem isValidCache_spec :
    (∀ (now : Int) (e : CacheEntry),
      isValidCache now e = true ↔ now - e.timestamp < e.ttl) ∧
    (∀ (now : Int) (e : CacheEntry), e.ttl = 0 → e.timestamp < now →
      isValidCache now e = false) ∧
    (∀ (cfg : CacheConfig) (st : CacheState) (e : CacheEntry),
      st.memoryCache = some e → isValidCache st.now e = false →
      (getFromMemory cfg st).1 = none) ∧
    (∀ (cfg : CacheConfig) (st : CacheState) (e : CacheEntry),
      st.localStorage = some e → isValidCache st.now e = false →
      (getFromLocalStorage cfg st).1 = none) ∧
    (∀ (cfg : CacheConfig) (st : CacheState) (e : CacheEntry),
      st.sessionStorage = some e → isValidCache st.now e = false →
      (getFromSessionStorage cfg st).1 = none) ∧
    (∀ (cfg : CacheConfig) (st : CacheState),
      (∀ m, st.memoryCache = some m → isValidCache st.now m = false) →
      (∀ l, st.localStorage = some l → isValidCache st.now l = false) →
      (∀ s, st.sessionStorage = some s → isValidCache st.now s = false) →
      (cacheGet cfg st).1 = none) := by
  refine ⟨?_, ?_, ?_, ?_, ?_, ?_⟩
  · intro now e
    simp [isValidCache]
  · intro now e h0 hel
    simp [isValidCache, h0]
    omega
  · intro cfg st e hm hv
    by_cases he : cfg.enableMemoryCache
    · rw [getFromMemory_of_invalid he hm hv]
    · rw [getFromMemory_of_disabled (by simpa using he)]
  · intro cfg st e hl hv
    rw [getFromLocalStorage_of_invalid hl hv]
  · intro cfg st e hs hv
    by_cases he : cfg.enableSessionStorage
    · rw [getFromSessionStorage_of_invalid he hs hv]
    · rw [getFromSessionStorage_of_disabled (by simpa using he)]
  · intro cfg st hmem hloc hsess
    have hstep1 : ∃ st1, cacheGet cfg st = cacheGet cfg st1 ∧
        (cfg.enableMemoryCache = false ∨ st1.memoryCache = none) ∧
        st1.localStorage = st.localStorage ∧
        st1.sessionStorage = st.sessionStorage ∧ st1.now = st.now := by
      by_cases hme : cfg.enableMemoryCache
      · rcases hm : st.memoryCache with _ | m
        · exact ⟨st, rfl, Or.inr hm, rfl, rfl, rfl⟩
        · exact ⟨{ st with memoryCache := none },
            cacheGet_purge_memory hme hm (hmem m hm), Or.inr rfl, rfl, rfl, rfl⟩
      · exact ⟨st, rfl, Or.inl (by simpa using hme), rfl, rfl, rfl⟩
    obtain ⟨st1, he1, hm1, hl1, hs1, hn1⟩ := hstep1
    rw [he1]
    have hstep2 : ∃ st2, cacheGet cfg st1 = cacheGet cfg st2 ∧
        (cfg.enableMemoryCache = false ∨ st2.memoryCache = none) ∧
        st2.localStorage = none ∧
        st2.sessionStorage = st.sessionStorage ∧ st2.now = st.now := by
      rcases hl : st1.localStorage with _ | l
      · exact ⟨st1, rfl, hm1, hl, hs1, hn1⟩
      · have hlv : isValidCache st1.now l = false := by
          rw [hn1]
          exact hloc l (by rw [← hl1]; exact hl)
        refine ⟨{ st1 with localStorage := none },
          cacheGet_purge_local hm1 hl hlv, ?_, rfl, hs1, hn1⟩
        rcases hm1 with hx | hx
        · exact Or.inl hx
        · exact Or.inr (by simp [hx])
    obtain ⟨st2, he2, hm2, hl2, hs2, hn2⟩ := hstep2
    rw [he2, cacheGet_session_only hm2 hl2]
    by_cases hse : cfg.enableSessionStorage
    · rcases hs : st2.sessionStorage with _ | x
      · rw [getFromSessionStorage_of_none hs]
      · have hxv : isValidCache st2.now x = false := by
          rw [hn2]
          exact hsess x (by rw [← hs2]; exact hs)
        rw [getFromSessionStorage_of_invalid hse hs hxv]
    · rw [getFromSessionStorage_of_disabled (by simpa using hse)]

lemma getGridColumns_cases (w : Option Nat) :
    getGridColumns w = 2 ∨ getGridColumns w = 3 ∨ getGridColumns w = 4 ∨
      getGridColumns w = 5 := by
  cases w with
  | none => simp [getGridColumns]
  | some width =>
    simp only [getGridColumns]
    split_ifs <;> simp

lemma getArrowNavigationIndex_unfocused (c n rows : Nat)
    (hf : Int.fdiv (-1) (c : Int) = -1) (ht : Int.tmod (-1) (c : Int) = -1)
    (hc : 2 ≤ c) (hn : 0 < n) (hr : 1 ≤ rows) :
    getArrowNavigationIndex (-1) ArrowDirection.up ⟨c, rows, n⟩ = -1 ∧
    getArrowNavigationIndex (-1) ArrowDirection.down ⟨c, rows, n⟩ = -1 ∧
    getArrowNavigationIndex (-1) ArrowDirection.left ⟨c, rows, n⟩ = -(c : Int) ∧
    getArrowNavigationIndex (-1) ArrowDirection.right ⟨c, rows, n⟩ = -(c : Int) := by
  have hnz : ¬(n = 0) := hn.ne'
  refine ⟨?_, ?_, ?_, ?_⟩ <;>
    simp only [getArrowNavigationIndex, getPositionFromIndex,
      getIndexFromPosition, hf, ht, hnz, if_false]
  · rw [(by decide : max (0 : Int) (-1 - 1) = 0)]
    omega
  · have h2 : min ((rows : Int) - 1) (-1 + 1) = 0 := by omega
    rw [h2]
    omega
  · rw [(by decide : max (0 : Int) (-1 - 1) = 0)]
    omega
  · have h4 : min ((c : Int) - 1) (-1 + 1) = 0 := by omega
    rw [h4]
    omega

lemma listGetInt_neg (l : List Service) (i : Int) (h : i < 0) :
    listGetInt l i = none := by
  simp [listGetInt, h]

/-- C9: Tab navigation is cyclic over the active list: forward from `i` gives
`(i+1) mod n` — in particular `0` from the unfocused state `-1` and `0` again
from the last index — backward gives `n-1` from index `0` or from the
unfocused state and `i-1` otherwise, and Tab never changes the search term. -/
theorem tab_navigation_spec :
    (∀ (n : Nat) (i : Int), 0 < n → -1 ≤ i → i < (n : Int) →
      getNextTabIndex i n TabDirection.forward = (i + 1) % (n : Int) ∧
      getNextTabIndex (-1) n TabDirection.forward = 0 ∧
      getNextTabIndex ((n : Int) - 1) n TabDirection.forward = 0 ∧
      (i = 0 ∨ i = -1 → getNextTabIndex i n TabDirection.backward = (n : Int) - 1) ∧
      (0 < i → getNextTabIndex i n TabDirection.backward = i - 1)) ∧
    (∀ (services : List Service) (d : TabDirection) (st : SearchState),
      (handleTabNavigation services d st).searchTerm = st.searchTerm) := by
  constructor
  · intro n i hn hge hlt
    have hnz : ¬(n = 0) := hn.ne'
    refine ⟨?_, ?_, ?_, ?_, ?_⟩
    · simp only [getNextTabIndex, hnz, if_false]
      exact Int.tmod_eq_emod (by omega) (by positivity)
    · simp only [getNextTabIndex, hnz, if_false]
      simp
    · simp only [getNextTabIndex, hnz, if_false]
      simp
    · rintro (rfl | rfl) <;> simp [getNextTabIndex, hnz]
    · intro hpos
      simp only [getNextTabIndex, hnz, if_false]
      rw [if_neg (by omega)]
  · intro services d st
    rfl

/-- C9 witness at the worked example of the spec: two services, Tab from the
unfocused state, from the last index, and Shift+Tab from both indices. -/
theorem tab_navigation_spec_witness :
    getNextTabIndex (-1) 2 TabDirection.forward = 0 ∧
    getNextTabIndex 1 2 TabDirection.forward = 0 ∧
    getNextTabIndex 0 2 TabDirection.backward = 1 ∧
    getNextTabIndex 1 2 TabDirection.backward = 0 := by
  have h0 := tab_navigation_spec.1 2 0 (by decide) (by decide) (by decide)
  have h1 := tab_navigation_spec.1 2 1 (by decide) (by decide) (by decide)
  refine ⟨h0.2.1, ?_, ?_, ?_⟩
  · have h := h0.2.2.1
    norm_num at h
    exact h
  · have h := h0.2.2.2.1 (Or.inl rfl)
    norm_num at h
    exact h
  · have h := h1.2.2.2.2 (by decide)
    norm_num at h
    exact h

/-- C10: with nothing focused (`focusedIndex = -1`) an arrow key computes a
negative index for every direction (`-1` for up/down, `-columns` for
left/right), so the resulting focused service is `null`: keyboard focus can
first be established only through Tab navigation. -/
theorem arrow_unfocused_spec :
    (∀ (width : Option Nat) (n : Nat), 0 < n →
      getArrowNavigationIndex (-1) ArrowDirection.up
        (calculateGridDimensions n width) = -1 ∧
      getArrowNavigationIndex (-1) ArrowDirection.down
        (calculateGridDimensions n width) = -1 ∧
      getArrowNavigationIndex (-1) ArrowDirection.left
        (calculateGridDimensions n width) =
        -((calculateGridDimensions n width).columns : Int) ∧
      getArrowNavigationIndex (-1) ArrowDirection.right
        (calculateGridDimensions n width) =
        -((calculateGridDimensions n width).columns : Int)) ∧
    (∀ (services : List Service) (width : Option Nat) (d : ArrowDirection)
      (st : SearchState), st.focusedIndex = -1 →
      (handleArrowNavigation services width d st).focusedService = none) := by
  have main : ∀ (width : Option Nat) (n : Nat), 0 < n →
      getArrowNavigationIndex (-1) ArrowDirection.up
        (calculateGridDimensions n width) = -1 ∧
      getArrowNavigationIndex (-1) ArrowDirection.down
        (calculateGridDimensions n width) = -1 ∧
      getArrowNavigationIndex (-1) ArrowDirection.left
        (calculateGridDimensions n width) =
        -((calculateGridDimensions n width).columns : Int) ∧
      getArrowNavigationIndex (-1) ArrowDirection.right
        (calculateGridDimensions n width) =
        -((calculateGridDimensions n width).columns : Int) := by
    intro width n hn
    rcases getGridColumns_cases width with h | h | h | h <;>
      simp only [calculateGridDimensions, h] <;>
      exact getArrowNavigationIndex_unfocused _ _ _ (by decide) (by decide)
        (by norm_num) hn (by omega)
  refine ⟨main, ?_⟩
  intro services width d st hfi
  simp only [handleArrowNavigation, updateFocusedService, hfi]
  apply listGetInt_neg
  rcases Nat.eq_zero_or_pos
      (if st.isSearching then st.filteredServices else services).length with hz | hpos
  · simp [getArrowNavigationIndex, calculateGridDimensions, hz]
  · obtain ⟨h1, h2, h3, h4⟩ := main width _ hpos
    have hcneg : -(((calculateGridDimensions
        (if st.isSearching then st.filteredServices else services).length
        width).columns : Int)) < 0 := by
      rcases getGridColumns_cases width with h | h | h | h <;>
        simp [calculateGridDimensions, h]
    cases d
    · rw [h1]; decide
    · rw [h2]; decide
    · rw [h3]; exact hcneg
    · rw [h4]; exact hcneg

/-- Sample data used by concrete witness instances: the two services of the
worked example of the spec. -/
def sampleServices : List Service :=
  [{ id := "grafana", name := "Grafana", description := "monitoring",
     url := "https://grafana.example", category := none },
   { id := "gitea", name := "Gitea", description := "code",
     url := "https://gitea.example", category := none }]

/-- C10 witness: a 7-item grid at a 800px viewport (3 columns), and a state
with nothing focused. -/
theorem arrow_unfocused_spec_witness :
    getArrowNavigationIndex (-1) ArrowDirection.up
      (calculateGridDimensions 7 (some 800)) = -1 ∧
    getArrowNavigationIndex (-1) ArrowDirection.left
      (calculateGridDimensions 7 (some 800)) = -3 ∧
    (handleArrowNavigation sampleServices (some 800) ArrowDirection.down
      (resetSearchState sampleServices)).focusedService = none := by
  have h := arrow_unfocused_spec
  refine ⟨(h.1 (some 800) 7 (by decide)).1, ?_,
    h.2 sampleServices (some 800) ArrowDirection.down
      (resetSearchState sampleServices) rfl⟩
  have hl := (h.1 (some 800) 7 (by decide)).2.2.1
  simpa [calculateGridDimensions, getGridColumns] using hl

lemma String_push_ne_empty (s : String) (c : Char) : s.push c ≠ "" := by
  intro h
  have hd := congrArg String.data h
  simp [String.data_push] at hd

lemma searchStateAfterTermChange_searchTerm (prev : SearchState) (t : String)
    (f : List Service) :
    (searchStateAfterTermChange prev t f).searchTerm = t := by
  unfold searchStateAfterTermChange
  cases prev.focusedService
  · rfl
  · dsimp only []
    split <;> rfl

lemma searchStateAfterTermChange_isSearching (prev : SearchState) (t : String)
    (f : List Service) :
    (searchStateAfterTermChange prev t f).isSearching = true := by
  unfold searchStateAfterTermChange
  cases prev.focusedService
  · rfl
  · dsimp only []
    split <;> rfl

lemma handleKeyPress_empty_term (services : List Service) (width : Option Nat)
    (ev : KeyEvent) (st : SearchState)
    (h : st.searchTerm = "" → st.isSearching = false) :
    (handleKeyPress services width ev st).searchTerm = "" →
    (handleKeyPress services width ev st).isSearching = false := by
  cases ev with
  | tab shift => simpa [handleKeyPress, handleTabNavigation] using h
  | arrow d => simpa [handleKeyPress, handleArrowNavigation] using h
  | escape =>
    by_cases hs : st.isSearching
    · simp [handleKeyPress, hs, resetSearchState]
    · simp only [handleKeyPress, hs]
      simpa using h
  | enter =>
    simp only [handleKeyPress]
    split_ifs <;> intro hterm <;> simp_all [resetSearchState]
  | backspace =>
    simp only [handleKeyPress]
    by_cases hs : st.isSearching
    · simp only [hs, if_true]
      by_cases hz : (st.searchTerm.dropRight 1 == "") = true
      · simp [hz, resetSearchState]
      · have hz' : (st.searchTerm.dropRight 1 == "") = false := by
          simpa using hz
        rw [if_neg hz]
        rw [searchStateAfterTermChange_searchTerm,
          searchStateAfterTermChange_isSearching]
        intro habs
        rw [habs] at hz'
        simp at hz'
    · simpa [hs] using h
  | char c =>
    simp only [handleKeyPress]
    by_cases hc : isSearchChar c
    · rw [if_pos hc]
      rw [searchStateAfterTermChange_searchTerm,
        searchStateAfterTermChange_isSearching]
      intro habs
      exact absurd habs (String_push_ne_empty _ _)
    · simpa [hc] using h

lemma runKeyEvents_invariant (services : List Service) (width : Option Nat)
    (evs : List KeyEvent) :
    ∀ st : SearchState, (st.searchTerm = "" → st.isSearching = false) →
      ((evs.foldl (fun s ev => handleKeyPress services width ev s) st).searchTerm = "" →
       (evs.foldl (fun s ev => handleKeyPress services width ev s) st).isSearching = false) := by
  induction evs with
  | nil => intro st h; exact h
  | cons ev rest ih =>
    intro st h
    exact ih (handleKeyPress services width ev st)
      (handleKeyPress_empty_term services width ev st h)

/-- C8: the search matcher returns exactly the services whose lowercased name
or description contains the lowercased term as a substring, preserving the
order of the input list; the empty term returns the full list itself; and in
every state reachable by key events an empty term implies `isSearching`
is false. -/
theorem filter_search_spec :
    (∀ (services : List Service) (term : String), term ≠ "" →
      ∀ s, s ∈ filterServices services term ↔
        (s ∈ services ∧
          (jsIncludes s.name.toLower term.toLower = true ∨
            jsIncludes s.description.toLower term.toLower = true))) ∧
    (∀ (services : List Service) (term : String),
      (filterServices services term).Sublist services) ∧
    (∀ services : List Service, filterServices services "" = services) ∧
    (∀ (services : List Service) (width : Option Nat) (evs : List KeyEvent),
      (runKeyEvents services width evs).searchTerm = "" →
      (runKeyEvents services width evs).isSearching = false) := by
  refine ⟨?_, ?_, ?_, ?_⟩
  · intro services term hterm s
    have hne : (term == "") = false := by simpa using hterm
    simp [filterServices, hne, List.mem_filter, serviceMatches,
      Bool.or_eq_true]
  · intro services term
    unfold filterServices
    split
    · exact List.Sublist.refl services
    · exact List.filter_sublist services
  · intro services
    simp [filterServices]
  · intro services width evs
    exact runKeyEvents_invariant services width evs (resetSearchState services)
      (fun _ => rfl)

/-- C8 witness: the worked example — term "gr" keeps only Grafana, term "g"
keeps both, the empty term returns the full list, and after typing "g"
followed by Backspace the state is idle again. -/
theorem filter_search_spec_witness :
    ((sampleServices.get ⟨0, by decide⟩) ∈ filterServices sampleServices "gr" ↔
      ((sampleServices.get ⟨0, by decide⟩) ∈ sampleServices ∧
        (jsIncludes (sampleServices.get ⟨0, by decide⟩).name.toLower
            (String.toLower "gr") = true ∨
          jsIncludes (sampleServices.get ⟨0, by decide⟩).description.toLower
            (String.toLower "gr") = true))) ∧
    filterServices sampleServices "" = sampleServices ∧
    ((runKeyEvents sampleServices (some 800)
        [KeyEvent.char 'g', KeyEvent.backspace]).searchTerm = "" →
      (runKeyEvents sampleServices (some 800)
        [KeyEvent.char 'g', KeyEvent.backspace]).isSearching = false) := by
  refine ⟨filter_search_spec.1 sampleServices "gr" (by decide) _,
    filter_search_spec.2.2.1 sampleServices,
    filter_search_spec.2.2.2 sampleServices (some 800)
      [KeyEvent.char 'g', KeyEvent.backspace]⟩

/-! ## Helper lemmas for the GitHub client -/

lemma rateLimitMsg_ne_notModified (env : GithubEnv) (r : HttpResponse) :
    rateLimitMsg env r ≠ "NOT_MODIFIED" := by
  intro h
  have hlen := congrArg String.length h
  simp only [rateLimitMsg, String.length_append] at hlen
  have e1 : ("GitHub API rate limit exceeded. ").length = 32 := rfl
  have e2 : ("Remaining: ").length = 11 := rfl
  have e3 : (", Reset: ").length = 9 := rfl
  have e4 : ("NOT_MODIFIED").length = 12 := rfl
  omega

lemma apiErrorMsg_ne_notModified (status : Nat) (text : String) :
    apiErrorMsg status text ≠ "NOT_MODIFIED" := by
  intro h
  have hlen := congrArg String.length h
  simp only [apiErrorMsg, String.length_append] at hlen
  have e1 : ("GitHub API error: ").length = 18 := rfl
  have e2 : (" ").length = 1 := rfl
  have e4 : ("NOT_MODIFIED").length = 12 := rfl
  omega

/-- The `catch` of `fetchConfig` re-throws a plain `Error` whose message is
not `NOT_MODIFIED` unchanged. -/
lemma fetchConfig_catch_err {cachedEtag : Option String} {env : GithubEnv}
    {msg : String} (h : fetchConfigBody cachedEtag env = .error (.err msg))
    (hne : msg ≠ "NOT_MODIFIED") :
    fetchConfig cachedEtag env = .error (.err msg) := by
  unfold fetchConfig
  rw [h]
  simp [Exc.message, Exc.isTypeError, hne]

/-- C6: `fetchConfig` handles the response in priority order — status 403
signals the rate-limit error carrying the two rate-limit headers before any
other check; status 304 with a truthy previous etag signals `NOT_MODIFIED`;
any other non-2xx status signals the generic error embedding the HTTP status;
a thrown `TypeError` mentioning `fetch` is re-signalled with the
human-readable connection message; and the `NOT_MODIFIED` signal passes
through the catch unchanged rather than being wrapped. -/
theorem fetchConfig_spec :
    (∀ (etag : Option String) (env : GithubEnv) (r : HttpResponse),
      env.outcome = .ok r → r.status = 403 →
      fetchConfig etag env = .error (.err (rateLimitMsg env r))) ∧
    (∀ (etag : Option String) (env : GithubEnv) (r : HttpResponse),
      env.outcome = .ok r → r.status = 304 → jsTruthyStr etag = true →
      fetchConfig etag env = .error (.err "NOT_MODIFIED")) ∧
    (∀ (etag : Option String) (env : GithubEnv) (r : HttpResponse),
      env.outcome = .ok r → r.status ≠ 403 → responseOk r.status = false →
      (r.status = 304 → jsTruthyStr etag = false) →
      fetchConfig etag env = .error (.err (apiErrorMsg r.status r.statusText))) ∧
    (∀ (etag : Option String) (env : GithubEnv) (m : String),
      env.outcome = .error (.typeErr m) → jsIncludes m "fetch" = true →
      fetchConfig etag env = .error (.err networkErrMsg)) := by
  refine ⟨?_, ?_, ?_, ?_⟩
  · intro etag env r hout hst
    apply fetchConfig_catch_err ?_ (rateLimitMsg_ne_notModified env r)
    unfold fetchConfigBody
    rw [hout]
    simp [hst]
  · intro etag env r hout hst htr
    have hbody : fetchConfigBody etag env = .error (.err "NOT_MODIFIED") := by
      unfold fetchConfigBody
      rw [hout]
      simp [hst, htr]
    unfold fetchConfig
    rw [hbody]
    simp [Exc.message]
  · intro etag env r hout h403 hok h304
    apply fetchConfig_catch_err ?_ (apiErrorMsg_ne_notModified r.status r.statusText)
    unfold fetchConfigBody
    rw [hout]
    have hc1 : (r.status == 403) = false := by simpa using h403
    have hc2 : (r.status == 304 && jsTruthyStr etag) = false := by
      by_cases h : r.status = 304
      · simp [h, h304 h]
      · simp [show (r.status == 304) = false by simpa using h]
    simp [hc1, hc2, hok]
  · intro etag env m hout hfetch
    have hmne : (m == "NOT_MODIFIED") = false := by
      rcases hm : (m == "NOT_MODIFIED") with _ | _
      · rfl
      · exfalso
        have : m = "NOT_MODIFIED" := by simpa using hm
        rw [this] at hfetch
        simp [jsIncludes, listContainsSub] at hfetch
    unfold fetchConfig fetchConfigBody
    rw [hout]
    simp [Exc.message, Exc.isTypeError, hmne, hfetch]

/-- Environment pieces shared by the concrete witness instances. -/
def sampleParse : String → String → Except Exc ServicesConfig :=
  fun _ _ => .error (.err "unused")

def sampleFmt : String → String := fun s => s

def resp403W : HttpResponse :=
  { status := 403, statusText := "Forbidden", rateLimitRemaining := some "0",
    rateLimitReset := some "", etagHeader := none,
    jsonBody := .error (.err "no body") }

def resp304W : HttpResponse :=
  { status := 304, statusText := "Not Modified", rateLimitRemaining := none,
    rateLimitReset := none, etagHeader := none,
    jsonBody := .error (.err "no body") }

def resp500W : HttpResponse :=
  { status := 500, statusText := "Server Error", rateLimitRemaining := none,
    rateLimitReset := none, etagHeader := none,
    jsonBody := .error (.err "no body") }

def env403W : GithubEnv :=
  { outcome := .ok resp403W, parseContent := sampleParse, fmtResetTime := sampleFmt }

def env304W : GithubEnv :=
  { outcome := .ok resp304W, parseContent := sampleParse, fmtResetTime := sampleFmt }

def env500W : GithubEnv :=
  { outcome := .ok resp500W, parseContent := sampleParse, fmtResetTime := sampleFmt }

def envThrowW : GithubEnv :=
  { outcome := .error (.typeErr "Failed to fetch"),
    parseContent := sampleParse, fmtResetTime := sampleFmt }

/-- C6 witness: one concrete response per branch. -/
theorem fetchConfig_spec_witness :
    fetchConfig none env403W = .error (.err (rateLimitMsg env403W resp403W)) ∧
    fetchConfig (some "W/1") env304W = .error (.err "NOT_MODIFIED") ∧
    fetchConfig none env500W =
      .error (.err (apiErrorMsg resp500W.status resp500W.statusText)) ∧
    fetchConfig (some "W/1") envThrowW = .error (.err networkErrMsg) := by
  refine ⟨fetchConfig_spec.1 none env403W resp403W rfl rfl,
    fetchConfig_spec.2.1 (some "W/1") env304W resp304W rfl rfl (by decide),
    fetchConfig_spec.2.2.1 none env500W resp500W rfl (by decide) (by decide)
      (by decide),
    fetchConfig_spec.2.2.2 (some "W/1") envThrowW "Failed to fetch" rfl
      (by decide)⟩

/-! ## Helper lemmas for the validator -/

lemma mem_flatten_enum {f : Nat → ParsedService → List String}
    {l : List ParsedService} {i : Nat} {s : ParsedService} {b : String}
    (hget : l.get? i = some s) (hb : b ∈ f i s) :
    b ∈ (l.enum.map fun p => f p.1 p.2).flatten := by
  rw [List.mem_flatten]
  refine ⟨f i s, ?_, hb⟩
  rw [List.mem_map]
  refine ⟨(i, s), ?_, rfl⟩
  rw [List.mk_mem_enum_iff_getElem?, ← List.get?_eq_getElem?]
  exact hget

lemma flatten_enum_map_eq_nil {f : Nat → ParsedService → List String}
    {l : List ParsedService} (h : ∀ s ∈ l, ∀ i, f i s = []) :
    (l.enum.map fun p => f p.1 p.2).flatten = [] := by
  rw [List.flatten_eq_nil_iff]
  intro x hx
  rw [List.mem_map] at hx
  obtain ⟨⟨i, s⟩, hmem, rfl⟩ := hx
  have hs : s ∈ l := by
    rw [List.mk_mem_enum_iff_getElem?] at hmem
    exact List.getElem?_mem hmem
  exact h s hs i

/-- When validation reports no error the document parsed to an actual value:
nonempty content and a services-bearing document. -/
lemma validate_errors_nil_shape (content : String) (outcome : YamlOutcome)
    (h : (validateYamlContent content outcome).errors = []) :
    (jsTrim content == "") = false ∧ ∃ p, outcome = .ok (some p) := by
  by_cases htrim : (jsTrim content == "") = true
  · simp [validateYamlContent, htrim] at h
  · have h2 : (jsTrim content == "") = false := by simpa using htrim
    refine ⟨h2, ?_⟩
    cases outcome with
    | error msg => simp [validateYamlContent, h2] at h
    | ok op =>
      cases op with
      | none => simp [validateYamlContent, h2] at h
      | some p => exact ⟨p, rfl⟩

/-- C7: the validator reports per-service problems with 1-based indices —
missing `id`, `name` or `url` each contribute an error, a missing
`description` and a missing top-level `title` contribute only warnings
(services whose three required fields are present validate regardless of
descriptions and title) — `isValid` holds exactly when the error list is
empty, and `parseYamlToConfig` returns `null` exactly when validation reports
at least one error, otherwise the parsed structure. -/
theorem validator_spec :
    (∀ (content : String) (outcome : YamlOutcome),
      (validateYamlContent content outcome).isValid = true ↔
        (validateYamlContent content outcome).errors = []) ∧
    (∀ (content : String) (outcome : YamlOutcome),
      parseYamlToConfig content outcome = none ↔
        (validateYamlContent content outcome).errors ≠ []) ∧
    (∀ (content : String) (outcome : YamlOutcome) (p : ParsedYaml),
      outcome = .ok (some p) →
      (validateYamlContent content outcome).errors = [] →
      parseYamlToConfig content outcome = some p) ∧
    (∀ (content : String) (p : ParsedYaml) (l : List ParsedService)
      (i : Nat) (s : ParsedService),
      (jsTrim content == "") = false → p.services = .array l →
      l.get? i = some s →
      (jsTruthyStr s.id = false →
        missingFieldError (i + 1) "id" ∈
          (validateYamlContent content (.ok (some p))).errors) ∧
      (jsTruthyStr s.name = false →
        missingFieldError (i + 1) "name" ∈
          (validateYamlContent content (.ok (some p))).errors) ∧
      (jsTruthyStr s.url = false →
        missingFieldError (i + 1) "url" ∈
          (validateYamlContent content (.ok (some p))).errors) ∧
      (jsTruthyStr s.description = false →
        missingDescriptionWarning (i + 1) ∈
          ((validateYamlContent content (.ok (some p))).warnings.getD []))) ∧
    (∀ (content : String) (p : ParsedYaml),
      (jsTrim content == "") = false → jsTruthyStr p.title = false →
      titleWarning ∈
        ((validateYamlContent content (.ok (some p))).warnings.getD [])) ∧
    (∀ (content : String) (p : ParsedYaml) (l : List ParsedService),
      (jsTrim content == "") = false → p.services = .array l →
      (∀ s ∈ l, jsTruthyStr s.id = true ∧ jsTruthyStr s.name = true ∧
        jsTruthyStr s.url = true) →
      (validateYamlContent content (.ok (some p))).isValid = true) := by
  have hiff : ∀ (content : String) (outcome : YamlOutcome),
      (validateYamlContent content outcome).isValid = true ↔
        (validateYamlContent content outcome).errors = [] := by
    intro content outcome
    by_cases htrim : (jsTrim content == "") = true
    · simp [validateYamlContent, htrim]
    · have h2 : (jsTrim content == "") = false := by simpa using htrim
      cases outcome with
      | error msg => simp [validateYamlContent, h2]
      | ok op =>
        cases op with
        | none => simp [validateYamlContent, h2]
        | some p => simp [validateYamlContent, h2, List.isEmpty_iff]
  refine ⟨hiff, ?_, ?_, ?_, ?_, ?_⟩
  · intro content outcome
    constructor
    · intro hnone hnil
      obtain ⟨h2, p, rfl⟩ := validate_errors_nil_shape content outcome hnil
      have hvalid : (validateYamlContent content (.ok (some p))).isValid = true :=
        (hiff content _).mpr hnil
      simp [parseYamlToConfig, hvalid] at hnone
    · intro hne
      have hvalid : (validateYamlContent content outcome).isValid = false := by
        rcases hv : (validateYamlContent content outcome).isValid with _ | _
        · rfl
        · exact absurd ((hiff content outcome).mp hv) hne
      simp [parseYamlToConfig, hvalid]
  · intro content outcome p hout hnil
    subst hout
    have hvalid := (hiff content _).mpr hnil
    simp [parseYamlToConfig, hvalid]
  · intro content p l i s h2 harr hget
    refine ⟨?_, ?_, ?_, ?_⟩
    · intro hid
      simp only [validateYamlContent, h2, Bool.false_eq_true, if_false, harr]
      exact mem_flatten_enum hget (by simp [serviceErrorsAt, hid])
    · intro hname
      simp only [validateYamlContent, h2, Bool.false_eq_true, if_false, harr]
      exact mem_flatten_enum hget (by simp [serviceErrorsAt, hname])
    · intro hurl
      simp only [validateYamlContent, h2, Bool.false_eq_true, if_false, harr]
      exact mem_flatten_enum hget (by simp [serviceErrorsAt, hurl])
    · intro hdesc
      have hwmem : missingDescriptionWarning (i + 1) ∈
          ((l.enum.map fun q => serviceWarningsAt q.1 q.2).flatten ++
            (if jsTruthyStr p.title then [] else [titleWarning])) :=
        List.mem_append_left _
          (mem_flatten_enum hget (by simp [serviceWarningsAt, hdesc]))
      simp only [validateYamlContent, h2, Bool.false_eq_true, if_false, harr]
      have hne := List.ne_nil_of_mem hwmem
      rw [if_neg (by simpa [List.isEmpty_iff] using hne)]
      simpa using hwmem
  · intro content p h2 htitle
    have hwmem : titleWarning ∈
        ((match p.services with
          | .array l => (l.enum.map fun q => serviceWarningsAt q.1 q.2).flatten
          | _ => []) ++
          (if jsTruthyStr p.title then [] else [titleWarning])) := by
      apply List.mem_append_right
      simp [htitle]
    simp only [validateYamlContent, h2, Bool.false_eq_true, if_false]
    have hne := List.ne_nil_of_mem hwmem
    rw [if_neg (by simpa [List.isEmpty_iff] using hne)]
    simpa using hwmem
  · intro content p l h2 harr hall
    simp only [validateYamlContent, h2, Bool.false_eq_true, if_false, harr]
    rw [flatten_enum_map_eq_nil]
    · rfl
    · intro s hs i
      obtain ⟨h1, h3, h4⟩ := hall s hs
      simp [serviceErrorsAt, h1, h3, h4]

/-- Concrete documents for the C7 witness. -/
def badParsedService : ParsedService :=
  { id := none, name := some "Grafana", url := some "https://g",
    description := none }

def badParsedYaml : ParsedYaml :=
  { title := none, services := .array [badParsedService] }

def goodParsedService : ParsedService :=
  { id := some "a", name := some "A", url := some "https://a",
    description := some "d" }

def goodParsedYaml : ParsedYaml :=
  { title := some "Dashboard", services := .array [goodParsedService] }

/-- C7 witness: a document with one service missing `id` and `description`
and no `title`, and a fully well-formed document. -/
theorem validator_spec_witness :
    ((validateYamlContent "services:" (.ok (some badParsedYaml))).isValid = true ↔
      (validateYamlContent "services:" (.ok (some badParsedYaml))).errors = []) ∧
    (parseYamlToConfig "services:" (.ok (some badParsedYaml)) = none ↔
      (validateYamlContent "services:" (.ok (some badParsedYaml))).errors ≠ []) ∧
    missingFieldError 1 "id" ∈
      (validateYamlContent "services:" (.ok (some badParsedYaml))).errors ∧
    missingDescriptionWarning 1 ∈
      ((validateYamlContent "services:" (.ok (some badParsedYaml))).warnings.getD []) ∧
    titleWarning ∈
      ((validateYamlContent "services:" (.ok (some badParsedYaml))).warnings.getD []) ∧
    (validateYamlContent "services:" (.ok (some goodParsedYaml))).isValid = true ∧
    parseYamlToConfig "services:" (.ok (some goodParsedYaml)) =
      some goodParsedYaml := by
  have hmem := validator_spec.2.2.2.1 "services:" badParsedYaml
    [badParsedService] 0 badParsedService (by decide) rfl rfl
  refine ⟨validator_spec.1 "services:" (.ok (some badParsedYaml)),
    validator_spec.2.1 "services:" (.ok (some badParsedYaml)),
    hmem.1 rfl, hmem.2.2.2 rfl,
    validator_spec.2.2.2.2.1 "services:" badParsedYaml (by decide) rfl,
    ?_, ?_⟩
  · exact validator_spec.2.2.2.2.2 "services:" goodParsedYaml _ (by decide) rfl
      (by intro s hs; simp at hs; subst hs; exact ⟨rfl, rfl, rfl⟩)
  · apply validator_spec.2.2.1 "services:" (.ok (some goodParsedYaml))
      goodParsedYaml rfl
    rw [← validator_spec.1]
    exact validator_spec.2.2.2.2.2 "services:" goodParsedYaml _ (by decide) rfl
      (by intro s hs; simp at hs; subst hs; exact ⟨rfl, rfl, rfl⟩)

/-- A 304 response against a supplied (truthy) etag signals `NOT_MODIFIED`. -/
lemma fetchConfig_notModified {etag : Option String} {env : GithubEnv}
    {r : HttpResponse} (hout : env.outcome = .ok r) (hst : r.status = 304)
    (ht : jsTruthyStr etag = true) :
    fetchConfig etag env = .error (.err "NOT_MODIFIED") := by
  have hbody : fetchConfigBody etag env = .error (.err "NOT_MODIFIED") := by
    unfold fetchConfigBody
    rw [hout]
    simp [hst, ht]
  unfold fetchConfig
  rw [hbody]
  simp [Exc.message]

/-- C2: when a valid cached entry exists (near expiry, so that the background
refresh fires) and the refresh fetch answers HTTP 304 against the cached
etag, the resolution result is exactly the cached service list, `set()` is
never called (the ghost write trace is unchanged), and the stored entry is
still returned unchanged by a subsequent `get`. -/
theorem notModified_preserves_cache
    (cfg : CacheConfig) (env : AppEnv) (st0 : AppState)
    (entry : CacheEntry) (c1 : CacheState) (r : HttpResponse) (tg : String)
    (hget : cacheGet cfg st0.cache = (some entry, c1))
    (hnear : entry.timestamp + entry.ttl - c1.now ≤ 30 * 60 * 1000)
    (hetag : entry.etag = some tg) (htg : tg ≠ "")
    (hout : env.githubRefresh.outcome = .ok r) (hst : r.status = 304) :
    fetchServices cfg env st0 =
      { services := entry.data.services, loading := false, error := none,
        cache := c1, log := st0.log } ∧
    c1.setLog = st0.cache.setLog ∧
    cacheGet cfg c1 = (some entry, c1) := by
  have hidem : cacheGet cfg c1 = (some entry, c1) := cacheGet_idem hget
  have hframe := @cacheGet_frame cfg st0.cache
  rw [hget] at hframe
  have hnow : c1.now = st0.cache.now := hframe.1
  have hsetlog : c1.setLog = st0.cache.setLog := hframe.2
  have hnearx : isNearExpiry cfg c1 = (true, c1) := by
    unfold isNearExpiry
    rw [hidem]
    simp only []
    rw [decide_eq_true hnear]
  have h304 : fetchConfig entry.etag env.githubRefresh =
      .error (.err "NOT_MODIFIED") := by
    apply fetchConfig_notModified hout hst
    rw [hetag]
    simpa [jsTruthyStr] using htg
  have hload : loadFromGitHub entry.etag env.githubRefresh cfg c1 =
      (.ok none, c1) := by
    unfold loadFromGitHub
    rw [h304]
    simp [Exc.message]
  refine ⟨?_, hsetlog, hidem⟩
  unfold fetchServices
  dsimp only []
  rw [hget]
  dsimp only []
  rw [hnearx]
  dsimp only []
  rw [hload]

/-- C1 (amended): when the cache misses and the remote fetch, the local YAML
file and the local JSON file all fail, the pipeline surfaces exactly one
user-visible error — the terminal message `Unable to load services
configuration from any source` — independent of what the three failures
were; each earlier failure is only logged, and the cache is never written. -/
theorem exhaustion_spec (cfg : CacheConfig) (env : AppEnv) (st0 : AppState)
    (c1 : CacheState) (eG eY eJ : Exc)
    (hget : cacheGet cfg st0.cache = (none, c1))
    (hG : fetchConfig none env.githubMain = .error eG)
    (hGne : eG.message ≠ "NOT_MODIFIED")
    (hY : localYamlResult env.localYaml = .error eY)
    (hJ : localJsonResult env.localJson = .error eJ) :
    (fetchServices cfg env st0).error = some allSourcesFailedMsg ∧
    (fetchServices cfg env st0).loading = false ∧
    (fetchServices cfg env st0).log = st0.log ++
      ["GitHub API unavailable, trying local files:",
       "Local YAML unavailable, trying JSON fallback:",
       "All configuration sources failed:"] ∧
    (fetchServices cfg env st0).cache.setLog = st0.cache.setLog := by
  have hmsg : (eG.message == "NOT_MODIFIED") = false := by simpa using hGne
  have hloadG : loadFromGitHub none env.githubMain cfg c1 = (.error eG, c1) := by
    unfold loadFromGitHub
    rw [hG]
    simp [hmsg]
  have hloadY : ∀ s : CacheState,
      loadFromLocalYaml env.localYaml cfg s = (.error eY, s) := by
    intro s
    unfold loadFromLocalYaml
    rw [hY]
  have hloadJ : ∀ s : CacheState,
      loadFromLocalJson env.localJson cfg s = (.error eJ, s) := by
    intro s
    unfold loadFromLocalJson
    rw [hJ]
  have hframe := @cacheGet_frame cfg st0.cache
  rw [hget] at hframe
  have hfinal : fetchServices cfg env st0 =
      { services := st0.services, loading := false,
        error := some allSourcesFailedMsg, cache := c1,
        log := ((st0.log ++ ["GitHub API unavailable, trying local files:"]) ++
          ["Local YAML unavailable, trying JSON fallback:"]) ++
          ["All configuration sources failed:"] } := by
    unfold fetchServices
    dsimp only []
    rw [hget]
    dsimp only []
    rw [hloadG]
    dsimp only []
    rw [hloadY]
    dsimp only []
    rw [hloadJ]
  refine ⟨by rw [hfinal], by rw [hfinal], ?_, by rw [hfinal]; exact hframe.2⟩
  rw [hfinal]
  simp

/-- C5 (amended): when step 2 of the pipeline (no valid cache, remote fetch
succeeds) populates the cache, the entry written to all three tiers carries
the source tag `github_api`, one of the three declared tags
`github_api | local_yaml | local_json`, together with the response data and
etag. -/
theorem github_success_cache_tag (env : AppEnv) (st0 : AppState)
    (c1 : CacheState) (r : FetchOk)
    (hget : cacheGet DEFAULT_CACHE_CONFIG st0.cache = (none, c1))
    (hok : fetchConfig none env.githubMain = .ok r) :
    ∃ written : CacheEntry,
      (fetchServices DEFAULT_CACHE_CONFIG env st0).cache.memoryCache = some written ∧
      (fetchServices DEFAULT_CACHE_CONFIG env st0).cache.localStorage = some written ∧
      (fetchServices DEFAULT_CACHE_CONFIG env st0).cache.sessionStorage = some written ∧
      (fetchServices DEFAULT_CACHE_CONFIG env st0).cache.setLog =
        c1.setLog ++ [written] ∧
      written.data = r.data ∧ written.etag = some r.etag ∧
      written.source = "github_api" ∧
      written.source ∈ declaredCacheSources ∧
      (fetchServices DEFAULT_CACHE_CONFIG env st0).services = r.data.services := by
  have hload : loadFromGitHub none env.githubMain DEFAULT_CACHE_CONFIG c1 =
      (.ok (some r.data),
        cacheSet DEFAULT_CACHE_CONFIG c1 r.data "github_api" (some r.etag)) := by
    unfold loadFromGitHub
    rw [hok]
  have hfinal : fetchServices DEFAULT_CACHE_CONFIG env st0 =
      { services := r.data.services, loading := false, error := none,
        cache := cacheSet DEFAULT_CACHE_CONFIG c1 r.data "github_api"
          (some r.etag),
        log := st0.log } := by
    unfold fetchServices
    dsimp only []
    rw [hget]
    dsimp only []
    rw [hload]
  refine ⟨⟨r.data, c1.now, some r.etag, "github_api",
      DEFAULT_CACHE_CONFIG.ttl⟩, ?_, ?_, ?_, ?_,
    rfl, rfl, rfl, by simp [declaredCacheSources], by rw [hfinal]⟩ <;>
    rw [hfinal] <;> simp [cacheSet, DEFAULT_CACHE_CONFIG]

/-- Concrete pipeline environments for the witnesses and counterexamples. -/
def witnessConfig : ServicesConfig :=
  { title := some "Dashboard", services := sampleServices }

def witnessEntry : CacheEntry :=
  { data := witnessConfig, timestamp := 0, etag := some "W/xyz",
    source := "github_api", ttl := 1000 }

def witnessCache : CacheState :=
  { memoryCache := some witnessEntry, localStorage := none,
    sessionStorage := none, now := 500, setLog := [] }

def emptyCacheW : CacheState :=
  { memoryCache := none, localStorage := none, sessionStorage := none,
    now := 500, setLog := [] }

def failLocalEnv : LocalFileEnv :=
  { fetchOk := false, parsed := .error (.err "unreachable") }

def respOkW : HttpResponse :=
  { status := 200, statusText := "OK", rateLimitRemaining := none,
    rateLimitReset := none, etagHeader := some "W/ok",
    jsonBody := .ok { content := "c64", encoding := "base64" } }

def envOkW : GithubEnv :=
  { outcome := .ok respOkW, parseContent := fun _ _ => .ok witnessConfig,
    fmtResetTime := sampleFmt }

def envAllFailW : AppEnv :=
  { githubMain := envThrowW, githubRefresh := envThrowW,
    localYaml := failLocalEnv, localJson := failLocalEnv }

def envGhOkW : AppEnv :=
  { githubMain := envOkW, githubRefresh := envThrowW,
    localYaml := failLocalEnv, localJson := failLocalEnv }

def env304App : AppEnv :=
  { githubMain := envThrowW, githubRefresh := env304W,
    localYaml := failLocalEnv, localJson := failLocalEnv }

def st0EmptyW : AppState :=
  { services := [], loading := true, error := none, cache := emptyCacheW,
    log := [] }

def st0CachedW : AppState :=
  { services := [], loading := true, error := none, cache := witnessCache,
    log := [] }

/-- C1 counterexample: with every source failing, the surfaced error is the
message of the code, `Unable to load services configuration from any source`,, not
the claimed string `unable to load service configuration from any source`. -/
theorem exhaustion_message_counterexample :
    (fetchServices DEFAULT_CACHE_CONFIG envAllFailW st0EmptyW).error =
      some "Unable to load services configuration from any source" ∧
    ¬((fetchServices DEFAULT_CACHE_CONFIG envAllFailW st0EmptyW).error =
      some "unable to load service configuration from any source") := by
  have h : (fetchServices DEFAULT_CACHE_CONFIG envAllFailW st0EmptyW).error =
      some "Unable to load services configuration from any source" := rfl
  refine ⟨h, ?_⟩
  rw [h]
  decide

/-- C1 witness: the counterexample environment instantiates the amended
theorem. -/
theorem exhaustion_spec_witness :
    (fetchServices DEFAULT_CACHE_CONFIG envAllFailW st0EmptyW).error =
      some allSourcesFailedMsg ∧
    (fetchServices DEFAULT_CACHE_CONFIG envAllFailW st0EmptyW).loading = false ∧
    (fetchServices DEFAULT_CACHE_CONFIG envAllFailW st0EmptyW).log =
      [] ++ ["GitHub API unavailable, trying local files:",
       "Local YAML unavailable, trying JSON fallback:",
       "All configuration sources failed:"] ∧
    (fetchServices DEFAULT_CACHE_CONFIG envAllFailW st0EmptyW).cache.setLog =
      st0EmptyW.cache.setLog :=
  exhaustion_spec DEFAULT_CACHE_CONFIG envAllFailW st0EmptyW emptyCacheW
    (.err networkErrMsg)
    (.err "Failed to fetch local YAML configuration")
    (.err "Failed to fetch local JSON configuration")
    rfl rfl (by decide) rfl rfl

/-- C2 witness: a valid near-expiry cached entry with etag `W/xyz` and a 304
refresh response. -/
theorem notModified_preserves_cache_witness :
    fetchServices DEFAULT_CACHE_CONFIG env304App st0CachedW =
      { services := witnessEntry.data.services, loading := false,
        error := none, cache := witnessCache, log := [] } ∧
    witnessCache.setLog = st0CachedW.cache.setLog ∧
    cacheGet DEFAULT_CACHE_CONFIG witnessCache =
      (some witnessEntry, witnessCache) :=
  notModified_preserves_cache DEFAULT_CACHE_CONFIG env304App st0CachedW
    witnessEntry witnessCache resp304W "W/xyz" rfl (by decide) rfl (by decide)
    rfl rfl

/-- C5 counterexample: the entry actually stored by a successful remote fetch
carries the tag `github_api`, which differs from the claimed `remote_api`,
and `remote_api` is not among the declared source tags at all. -/
theorem cache_tag_counterexample :
    ((fetchServices DEFAULT_CACHE_CONFIG envGhOkW st0EmptyW).cache.memoryCache.map
      CacheEntry.source) = some "github_api" ∧
    ¬(((fetchServices DEFAULT_CACHE_CONFIG envGhOkW st0EmptyW).cache.memoryCache.map
      CacheEntry.source) = some "remote_api") ∧
    ¬("remote_api" ∈ declaredCacheSources) := by
  have h : ((fetchServices DEFAULT_CACHE_CONFIG envGhOkW st0EmptyW).cache.memoryCache.map
      CacheEntry.source) = some "github_api" := rfl
  refine ⟨h, ?_, by decide⟩
  rw [h]
  decide

/-- C5 witness: the same successful-fetch environment instantiates the
amended theorem. -/
theorem github_success_cache_tag_witness :
    ∃ written : CacheEntry,
      (fetchServices DEFAULT_CACHE_CONFIG envGhOkW st0EmptyW).cache.memoryCache =
        some written ∧
      (fetchServices DEFAULT_CACHE_CONFIG envGhOkW st0EmptyW).cache.localStorage =
        some written ∧
      (fetchServices DEFAULT_CACHE_CONFIG envGhOkW st0EmptyW).cache.sessionStorage =
        some written ∧
      (fetchServices DEFAULT_CACHE_CONFIG envGhOkW st0EmptyW).cache.setLog =
        emptyCacheW.setLog ++ [written] ∧
      written.data = witnessConfig ∧ written.etag = some "W/ok" ∧
      written.source = "github_api" ∧
      written.source ∈ declaredCacheSources ∧
      (fetchServices DEFAULT_CACHE_CONFIG envGhOkW st0EmptyW).services =
        witnessConfig.services :=
  github_success_cache_tag envGhOkW st0EmptyW emptyCacheW
    ⟨witnessConfig, "W/ok", false⟩ rfl rfl

/-- Concrete cache states for the C3/C4 witnesses. -/
def localOnlyCache : CacheState :=
  { memoryCache := none, localStorage := some witnessEntry,
    sessionStorage := none, now := 500, setLog := [] }

def expiredCacheW : CacheState :=
  { memoryCache := some witnessEntry, localStorage := none,
    sessionStorage := none, now := 5000, setLog := [] }

def zeroTtlEntry : CacheEntry :=
  { data := witnessConfig, timestamp := 0, etag := none,
    source := "github_api", ttl := 0 }

/-- C3 witness: a valid memory hit, a valid durable hit promoted into memory,
and an expired entry purged with a `none` result. -/
theorem cacheGet_tier_order_witness :
    cacheGet DEFAULT_CACHE_CONFIG witnessCache =
      (some witnessEntry, witnessCache) ∧
    cacheGet DEFAULT_CACHE_CONFIG localOnlyCache =
      (some witnessEntry,
        { localOnlyCache with memoryCache := some witnessEntry }) ∧
    cacheGet DEFAULT_CACHE_CONFIG expiredCacheW =
      (none, { expiredCacheW with memoryCache := none
                                  localStorage := none
                                  sessionStorage := none }) := by
  refine ⟨(cacheGet_tier_order witnessCache).1 witnessEntry rfl rfl,
    (cacheGet_tier_order localOnlyCache).2.1 witnessEntry
      (by intro m hm; exact Option.noConfusion hm) rfl rfl,
    (cacheGet_tier_order expiredCacheW).2.2.2
      (by intro m hm; cases hm; decide)
      (by intro l hl; exact Option.noConfusion hl)
      (by intro s hs; exact Option.noConfusion hs)⟩

/-- C4 witness: the validity formula at a concrete entry, a zero-TTL entry
after 1ms, and an expired entry ignored by the memory tier and by `get`. -/
theorem isValidCache_spec_witness :
    (isValidCache 500 witnessEntry = true ↔
      (500 : Int) - witnessEntry.timestamp < witnessEntry.ttl) ∧
    isValidCache 1 zeroTtlEntry = false ∧
    (getFromMemory DEFAULT_CACHE_CONFIG expiredCacheW).1 = none ∧
    (cacheGet DEFAULT_CACHE_CONFIG expiredCacheW).1 = none := by
  refine ⟨isValidCache_spec.1 500 witnessEntry,
    isValidCache_spec.2.1 1 zeroTtlEntry rfl (by decide),
    isValidCache_spec.2.2.1 DEFAULT_CACHE_CONFIG expiredCacheW witnessEntry
      rfl (by decide),
    isValidCache_spec.2.2.2.2.2 DEFAULT_CACHE_CONFIG expiredCacheW
      (by intro m hm; cases hm; decide)
      (by intro l hl; exact Option.noConfusion hl)
      (by intro s hs; exact Option.noConfusion hs)⟩
